import Mathlib

/-!
Verification of the metric aggregation pipelines of the global-alignment-index
repository, against its natural-language specification.

Modelling conventions, used throughout:

- JavaScript numbers are modelled as exact rationals.  Every concrete value
  handled by the pipelines (CSV-parsed rates, populations, millisecond
  timestamps) is decimal, and the claims under study are about reconciliation,
  gating, ordering and rounding logic, not about IEEE 754 rounding error.
- A JavaScript Map is modelled as an association list in insertion order:
  mapGet returns the first binding, mapSet overwrites an existing binding in
  place or appends a new one, exactly as Map.get and Map.set behave.
  Map.keys returns each key once; on lists produced by mapSet the key list is
  duplicate-free, and we apply List.dedup so that mapKeys is total on all
  association lists.  All uses below sort the keys afterwards, so the order
  of dedup is immaterial.
- Array.prototype.sort with a comparator is required by ECMAScript to be
  stable and consistent; for the total preorders used by this repository its
  result coincides with insertion sort, which we use.
- String keys of the form iso + colon + year are modelled as pairs
  (String x Int): the iso part always matches three capital letters and the
  year prints without a colon, so the string key and the pair are in
  bijection on every key the code constructs.
- Math.round is modelled following ECMA-262: the integer closest to the
  argument, ties rounded toward positive infinity, that is floor (x + 1/2).
- String.prototype.toUpperCase / toLowerCase and the country-name
  canonicalisation are modelled for ASCII data (Char.toUpper and
  Char.toLower agree with JavaScript there, and NFKD plus stripping of
  combining marks is the identity); every string these claims evaluate is
  ASCII.
-/

namespace GAI

/-- Math.round per ECMA-262: the integer closest to q, ties toward positive
infinity, i.e. floor of (q + 1/2). -/
def jsRound (q : ℚ) : ℤ := ⌊q + 1/2⌋

/-- roundN from the homicide pipeline: Math.round (value * 10^decimals) / 10^decimals. -/
def roundN (value : ℚ) (decimals : ℕ) : ℚ := (jsRound (value * 10 ^ decimals) : ℚ) / 10 ^ decimals

/-- round1 from the military-expenditure and internet-shutdown scripts:
Math.round (value * 10) / 10. -/
def round1 (value : ℚ) : ℚ := (jsRound (value * 10) : ℚ) / 10

/-- Modelled from the specification words only (for comparison with the code):
round-half-away-from-zero at a fixed decimal precision, i.e.
sign v * round (abs v * 10^d + one half toward away) / 10^d. -/
def roundAwayFromZero (value : ℚ) (decimals : ℕ) : ℚ :=
  if 0 ≤ value then (jsRound (value * 10 ^ decimals) : ℚ) / 10 ^ decimals
  else -((jsRound (-value * 10 ^ decimals) : ℚ) / 10 ^ decimals)

/-- Map.get: first binding of the key in the association list. -/
def mapGet {κ α : Type} [BEq κ] (m : List (κ × α)) (k : κ) : Option α :=
  List.lookup k m

/-- Map.set: overwrite the existing binding in place, else append. -/
def mapSet {κ α : Type} [BEq κ] : List (κ × α) → κ → α → List (κ × α)
  | [], k, v => [(k, v)]
  | (k', v') :: t, k, v => if k' == k then (k, v) :: t else (k', v') :: mapSet t k v

/-- Map.keys: the distinct keys of the association list. -/
def mapKeys {κ α : Type} [DecidableEq κ] (m : List (κ × α)) : List κ :=
  (m.map Prod.fst).dedup

/-- Numeric ascending sort of a list of integers, as produced by the
JavaScript sort (a, b) => a - b. -/
def sortInt (l : List ℤ) : List ℤ := List.insertionSort (· ≤ ·) l

/-- SeriesPoint: the published output unit, a year paired with a value. -/
structure Point where
  year : ℤ
  value : ℚ
deriving DecidableEq, Repr

/-- Comparator order used by the pipelines to sort points: (a, b) => a.year - b.year. -/
def pointLe (a b : Point) : Prop := a.year ≤ b.year

instance : DecidableRel pointLe := fun a b => Int.decLe a.year b.year

instance : IsTotal Point pointLe := ⟨fun a b => Int.le_total a.year b.year⟩

instance : IsTrans Point pointLe := ⟨fun _ _ _ h h' => le_trans h h'⟩

/-- Sort a series of points by year (stable, as ECMAScript requires). -/
def sortPoints (l : List Point) : List Point := List.insertionSort pointLe l

/-- Uppercase a string character by character (ASCII model of toUpperCase). -/
def sUpper (s : String) : String := String.mk (s.toList.map Char.toUpper)

/-- Lowercase a string character by character (ASCII model of toLowerCase). -/
def sLower (s : String) : String := String.mk (s.toList.map Char.toLower)

/-- Trim leading and trailing whitespace (model of String.prototype.trim). -/
def sTrim (s : String) : String :=
  String.mk (((s.toList.dropWhile Char.isWhitespace).reverse.dropWhile Char.isWhitespace).reverse)

/-- Check that the second list starts with the first (character lists). -/
def leadsWith : List Char → List Char → Bool
  | [], _ => true
  | _ :: _, [] => false
  | a :: as, b :: bs => a == b && leadsWith as bs

/-- Check that needle occurs as a contiguous run inside hay (character lists). -/
def hasRun (needle : List Char) : List Char → Bool
  | [] => leadsWith needle []
  | c :: t => leadsWith needle (c :: t) || hasRun needle t

/-- Model of String.prototype.includes: s.includes sub. -/
def strIncludes (s sub : String) : Bool := hasRun sub.toList s.toList

/-- Running maximum step over an optional accumulator. -/
def optMax : Option ℚ → ℚ → Option ℚ
  | none, x => some x
  | some a, x => some (max a x)

/-- Maximum of a list of rationals, none when the list is empty. -/
def maxQ (l : List ℚ) : Option ℚ := l.foldl optMax none

/-- Combine two optional maxima. -/
def mergeMax : Option ℚ → Option ℚ → Option ℚ
  | a, none => a
  | none, some b => some b
  | some a, some b => some (max a b)

/-- Collect a list of Except results, stopping at the first error: the shape
of the pipeline loops that either push one point per year or throw. -/
def collectE {ε α β : Type} (g : α → Except ε β) : List α → Except ε (List β)
  | [] => .ok []
  | y :: ys =>
    match g y, collectE g ys with
    | .ok p, .ok ps => .ok (p :: ps)
    | .error e, _ => .error e
    | .ok _, .error e => .error e

namespace Shutdown

/-- Milliseconds per day, as in the internet-shutdown script. -/
def MS_PER_DAY : ℤ := 86400000

/-- YearInterval from the internet-shutdown script: one per-country-year
sub-interval of an event, with millisecond endpoints. -/
structure YearInterval where
  iso3 : String
  country : String
  year : ℤ
  startMs : ℤ
  endMs : ℤ
deriving DecidableEq, Repr

/-- Comparator order of mergeIntervals:
(a, b) => a.startMs === b.startMs ? a.endMs - b.endMs : a.startMs - b.startMs. -/
def ivLe (a b : YearInterval) : Prop :=
  a.startMs < b.startMs ∨ (a.startMs = b.startMs ∧ a.endMs ≤ b.endMs)

instance : DecidableRel ivLe := fun a b => by unfold ivLe; infer_instance

instance : IsTotal YearInterval ivLe := by
  constructor
  intro a b
  unfold ivLe
  omega

instance : IsTrans YearInterval ivLe := by
  constructor
  intro a b c hab hbc
  unfold ivLe at *
  omega

/-- Sort the sub-intervals by start instant (ties by end instant), as the
source sorts a copy of the input array. -/
def sortIntervals (l : List YearInterval) : List YearInterval := List.insertionSort ivLe l

/-- Sweep loop of mergeIntervals over the sorted tail: cs and ce hold
currentStart and currentEnd; an interval starting at or before ce extends the
current union, otherwise the union is closed into the total and restarted. -/
def sweep (cs ce : ℤ) : List YearInterval → ℤ
  | [] => ce - cs
  | iv :: rest =>
    if iv.startMs ≤ ce then sweep cs (max ce iv.endMs) rest
    else (ce - cs) + sweep iv.startMs iv.endMs rest

/-- Total milliseconds computed by mergeIntervals before the division by
MS_PER_DAY (zero for an empty input, as the early return does). -/
def mergeMs (l : List YearInterval) : ℤ :=
  match sortIntervals l with
  | [] => 0
  | h :: t => sweep h.startMs h.endMs t

/-- mergeIntervals from the internet-shutdown script: sweep-line union of the
sub-intervals, returned in days. -/
def mergeIntervals (l : List YearInterval) : ℚ :=
  (mergeMs l : ℚ) / (MS_PER_DAY : ℚ)

/-- Set of integer milliseconds covered by the half-open intervals of the
list; its cardinality is the Lebesgue measure (in ms) of the set union,
since all endpoints are integers. -/
def unionSet (l : List YearInterval) : Finset ℤ :=
  l.foldr (fun iv acc => Finset.Ico iv.startMs iv.endMs ∪ acc) ∅

/-- DayFromYear per ECMA-262 (the day number of January 1 of a year, relative
to the epoch); Int division in Lean is Euclidean, which is floor division for
the positive divisors used here, matching the ECMA floor. -/
def dayFromYear (y : ℤ) : ℤ :=
  365 * (y - 1970) + (y - 1969) / 4 - (y - 1901) / 100 + (y - 1601) / 400

/-- TimeFromYear per ECMA-262: Date.UTC (y, 0, 1) in milliseconds. -/
def timeFromYear (y : ℤ) : ℤ := 86400000 * dayFromYear y

/-- Largest offset j with 0 <= j <= bound and dayFromYear (1970 + j) <= r
(0 when none), found by downward search; helper for yearFromDay. -/
def eraSearch (r : ℤ) : ℕ → ℤ
  | 0 => 0
  | j + 1 => if dayFromYear (1970 + (j + 1 : ℤ)) ≤ r then (j + 1 : ℤ) else eraSearch r j

/-- Largest y with dayFromYear y <= d, computed through the exact 400-year
era of 146097 days: this is the YearFromTime relation of ECMA-262, expressed
on day numbers. -/
def yearFromDay (d : ℤ) : ℤ :=
  1970 + 400 * (d / 146097) + eraSearch (d % 146097) 399

/-- YearFromTime per ECMA-262, i.e. getUTCFullYear of a millisecond instant:
the largest y with timeFromYear y <= t. -/
def yearFromTime (t : ℤ) : ℤ := yearFromDay (t / 86400000)

/-- NormalizedEvent from the internet-shutdown script (the fields splitByYear
reads, plus the approx flag it carries along). -/
structure NEvent where
  iso3 : String
  country : String
  startMs : ℤ
  endMs : ℤ
  approx : Bool
deriving DecidableEq, Repr

/-- splitByYear from the internet-shutdown script: one candidate sub-interval
for each year from getUTCFullYear (startMs) to getUTCFullYear (endMs - 1),
clipped to the UTC year window and skipped when empty. -/
def splitByYear (ev : NEvent) : List YearInterval :=
  let startYear := yearFromTime ev.startMs
  let endYear := yearFromTime (ev.endMs - 1)
  (List.range (endYear - startYear + 1).toNat).filterMap fun (k : ℕ) =>
    let year := startYear + (k : ℤ)
    let yearStart := timeFromYear year
    let yearEnd := timeFromYear (year + 1)
    let s := max ev.startMs yearStart
    let e := min ev.endMs yearEnd
    if e ≤ s then none else some ⟨ev.iso3, ev.country, year, s, e⟩

/-- Touching predicate used to state the splitting claim: the event span
meets the UTC window of the given calendar year. -/
def touchesYear (ev : NEvent) (y : ℤ) : Prop :=
  max ev.startMs (timeFromYear y) < min ev.endMs (timeFromYear (y + 1))

/-- World Bank aggregate pseudo-codes excluded from country-level work; the
same 47-element set appears in the internet-shutdown script and the homicide
pipeline. -/
def AGGREGATE_ISO3 : List String :=
  ["AFE", "AFW", "ARB", "CEB", "CSS", "EAP", "EAR", "EAS", "ECA", "ECS",
   "EMU", "EUU", "FCS", "HIC", "HPC", "IBD", "IBT", "IDA", "IDB", "IDX",
   "LAC", "LCN", "LDC", "LIC", "LMC", "LMY", "LTE", "MEA", "MIC", "MNA",
   "NAC", "OED", "OSS", "PRE", "PSS", "PST", "SAS", "SSA", "SSF", "SST",
   "TEA", "TEC", "TLA", "TMN", "TSA", "TSS", "UMC"]

/-- Static alias table STOP_ALIAS_TO_ISO of the internet-shutdown script,
verbatim (apostrophes written as the escape x27). -/
def STOP_ALIAS_TO_ISO : List (String × String) :=
  [("AFGHANISTAN", "AFG"),
   ("BOLIVIA(BOLIVARIANREPUBLICOF)", "BOL"),
   ("BOLIVIA(BOLIVARIANREPUBLIC)", "BOL"),
   ("BOSNIAANDHERZEGOVINA", "BIH"),
   ("BRUNEIDARUSSALAM", "BRN"),
   ("CABOVERDE", "CPV"),
   ("CAPEVERDE", "CPV"),
   ("CONGO(BRAZZAVILLE)", "COG"),
   ("CONGO(KINSHASA)", "COD"),
   ("DEMOCRATICREPUBLICOFTHECONGO", "COD"),
   ("DEMOCRATICREPUBLICOFCONGO", "COD"),
   ("REPUBLICOFTHECONGO", "COG"),
   ("REPUBLICOFCONGO", "COG"),
   ("COTEDIVOIRE", "CIV"),
   ("IVORYCOAST", "CIV"),
   ("COTED\x27IVOIRE", "CIV"),
   ("COTEDIVOIRE(REPUBLICOF)", "CIV"),
   ("COTEIVOIRE", "CIV"),
   ("LAOPEOPLE\x27SDEMOCRATICREPUBLIC", "LAO"),
   ("LAOPEOPLEDEMOCRATICREPUBLIC", "LAO"),
   ("LAOS", "LAO"),
   ("MOLDOVA(REPUBLICOF)", "MDA"),
   ("MOLDOVA", "MDA"),
   ("MYANMAR(BURMA)", "MMR"),
   ("BURMA", "MMR"),
   ("RUSSIANFEDERATION", "RUS"),
   ("RUSSIA", "RUS"),
   ("SOUTHKOREA", "KOR"),
   ("NORTHKOREA", "PRK"),
   ("REPUBLICOFKOREA", "KOR"),
   ("DEMOCRATICPEOPLE\x27SREPUBLICOFKOREA", "PRK"),
   ("SYRIANARABREPUBLIC", "SYR"),
   ("SYRIA", "SYR"),
   ("UNITEDSTATES", "USA"),
   ("UNITEDSTATESOFAMERICA", "USA"),
   ("UNITEDKINGDOM", "GBR"),
   ("UNITEDKINGDOMOFGREATBRITAINANDNORTHERNIRELAND", "GBR"),
   ("GREATBRITAIN", "GBR"),
   ("UAE", "ARE"),
   ("UNITEDARABEMIRATES", "ARE"),
   ("TANZANIA,UNITEDREPUBLICOF", "TZA"),
   ("TANZANIA", "TZA"),
   ("TIMOR-LESTE", "TLS"),
   ("EASTTIMOR", "TLS"),
   ("VIETNAM", "VNM"),
   ("VENEZUELA(BOLIVARIANREPUBLICOF)", "VEN"),
   ("VENEZUELA", "VEN"),
   ("PALESTINE", "PSE"),
   ("STATEOFPALISTINE", "PSE"),
   ("STATEOFPLESTINE", "PSE"),
   ("WESTBANKANDGAZA", "PSE"),
   ("KOSOVO", "XKX"),
   ("SWAZILAND", "SWZ"),
   ("ESWATINI", "SWZ"),
   ("GAMBIA", "GMB"),
   ("THEGAMBIA", "GMB"),
   ("BAHAMAS", "BHS"),
   ("BAHAMAS,THE", "BHS"),
   ("GAMBIA,THE", "GMB"),
   ("IRAN(ISLAMICREPUBLICOF)", "IRN"),
   ("IRAN", "IRN"),
   ("BOLIVARIANREPUBLICOFVENEZUELA", "VEN"),
   ("KOREA,REPUBLICOF", "KOR"),
   ("KOREA,DEMPEOPLE\x27SREPUBLICOF", "PRK"),
   ("BOSNIA&HERZEGOVINA", "BIH"),
   ("SAOTOMEANDPRINCIPE", "STP"),
   ("SãOTOMEANDPRíNCIPE", "STP"),
   ("SãOTOMEANDPRINCIPE", "STP"),
   ("SAOTOME&PRINCIPE", "STP"),
   ("TRINIDADANDTOBAGO", "TTO"),
   ("ANTIGUAANDBARBUDA", "ATG"),
   ("ST.KITTSANDNEVIS", "KNA"),
   ("STKITTSANDNEVIS", "KNA"),
   ("ST.VINCENTANDTHEGRENADINES", "VCT"),
   ("STVINCENTANDTHEGRENADINES", "VCT"),
   ("BOSNIA-HERZEGOVINA", "BIH"),
   ("DOMINICANREPUBLIC", "DOM"),
   ("CENTRALAFRICANREPUBLIC", "CAF"),
   ("REPUBLICOFTHEPHILIPPINES", "PHL"),
   ("PHILIPPINES", "PHL"),
   ("SUDAN", "SDN"),
   ("SOUTHSUDAN", "SSD"),
   ("UNITEDREPUBLICOFTANZANIA", "TZA"),
   ("HONGKONG", "HKG"),
   ("HONGKONGSAR", "HKG"),
   ("MACAO", "MAC"),
   ("MACAOSAR", "MAC"),
   ("MACAU", "MAC"),
   ("MACAUSAR", "MAC"),
   ("REPUBLICOFMOLDOVA", "MDA"),
   ("CZECHREPUBLIC", "CZE"),
   ("SLOVAKREPUBLIC", "SVK"),
   ("SAINTLUCIA", "LCA")]

/-- Test of the regular expression for exactly three capital letters. -/
def isoAlpha3 (s : String) : Bool :=
  s.toList.length == 3 && s.toList.all fun c => ('A' ≤ c) && (c ≤ 'Z')

/-- isCountryIso from the internet-shutdown script: a falsy (empty) code is
rejected, then the uppercased code must be three capital letters, not WLD,
and not an aggregate pseudo-code. -/
def isCountryIso : Option String → Bool
  | none => false
  | some code =>
    if code = "" then false
    else
      let iso := sUpper code
      isoAlpha3 iso && iso != "WLD" && !(AGGREGATE_ISO3.contains iso)

/-- canonicalizeCountry from the internet-shutdown script, on ASCII data:
NFKD and combining-mark stripping are the identity, every character outside
the letters and digits is removed, and the rest is uppercased. -/
def canonicalizeCountry (s : String) : String :=
  String.mk ((s.toList.filter Char.isAlphanum).map Char.toUpper)

/-- Portion of PopulationData that the resolver reads: canonical country
names seen in the population index, and display names per iso code. -/
structure PopData where
  canonicalNameToIso : List (String × String)
  isoToCountryName : List (String × String)
deriving Repr

/-- resolveIsoForEvent from the internet-shutdown script: iso hint, raw name
as iso, static alias table, population-index names, in that order; the pair
carries the resolved code (or none) and the display name. -/
def resolveIsoForEvent (event : NEvent) (population : PopData) :
    Option String × String :=
  let isoHint := event.iso3
  let trimmedCountry := sTrim event.country
  if isCountryIso (some isoHint) then
    let iso := sUpper isoHint
    (some iso, ((mapGet population.isoToCountryName iso).getD trimmedCountry))
  else
    let candidate := sUpper trimmedCountry
    if isCountryIso (some candidate) then
      (some candidate, ((mapGet population.isoToCountryName candidate).getD trimmedCountry))
    else
      let canonical := canonicalizeCountry trimmedCountry
      match mapGet STOP_ALIAS_TO_ISO canonical with
      | some iso => (some iso, ((mapGet population.isoToCountryName iso).getD trimmedCountry))
      | none =>
        match mapGet population.canonicalNameToIso canonical with
        | some iso => (some iso, ((mapGet population.isoToCountryName iso).getD trimmedCountry))
        | none => (none, trimmedCountry)

end Shutdown

namespace Homicide

/-- Parsed row of the homicide CSV after the Number conversions: the model
keeps the rows whose year parsed as an integer and whose rate parsed as a
finite number; rows failing those conversions are discarded by guards before
any of the logic under study runs. -/
structure RateRow where
  iso : String
  year : ℤ
  rate : ℚ
  source : String
deriving DecidableEq, Repr

/-- Entry of the intermediate duplicate-resolution map of loadHomicideRates. -/
structure RateSrc where
  rate : ℚ
  source : String
deriving DecidableEq, Repr

/-- isCountryIso from the homicide pipeline: three capital letters, not WLD,
not an aggregate pseudo-code. -/
def isCountryIso (code : String) : Bool :=
  Shutdown.isoAlpha3 code && code != "WLD" && !(Shutdown.AGGREGATE_ISO3.contains code)

/-- Row-processing step of loadHomicideRates: WLD rows feed the wldByYear
map; country rows pass the iso, year and sign guards and are then reconciled
against an existing same-key entry (replace when the incoming row is
UNODC-coded and the stored one is not, else average when the two rates differ
by more than 1e-6, else keep). -/
def loadStep (acc : List ((String × ℤ) × RateSrc) × List (ℤ × ℚ)) (row : RateRow) :
    List ((String × ℤ) × RateSrc) × List (ℤ × ℚ) :=
  let iso := sUpper (sTrim row.iso)
  if iso = "WLD" then
    if row.year ≥ 1990 ∧ row.rate ≥ 0 then (acc.1, mapSet acc.2 row.year row.rate) else acc
  else if !(isCountryIso iso) then acc
  else if row.year < 1990 then acc
  else if row.rate < 0 then acc
  else
    let source := sTrim row.source
    let key := (iso, row.year)
    match mapGet acc.1 key with
    | some existing =>
      let preferNew :=
        strIncludes (sLower source) "unodc" && !(strIncludes (sLower existing.source) "unodc")
      if preferNew then (mapSet acc.1 key ⟨row.rate, source⟩, acc.2)
      else if |existing.rate - row.rate| > 1/1000000 then
        (mapSet acc.1 key ⟨(existing.rate + row.rate) / 2, existing.source⟩, acc.2)
      else acc
    | none => (mapSet acc.1 key ⟨row.rate, source⟩, acc.2)

/-- loadHomicideRates from the homicide pipeline: fold the rows, then strip
the source labels from the country map. -/
def loadHomicideRates (rows : List RateRow) :
    List ((String × ℤ) × ℚ) × List (ℤ × ℚ) :=
  let acc := rows.foldl loadStep ([], [])
  (acc.1.map fun e => (e.1, e.2.rate), acc.2)

/-- Parsed row of the population CSV after the Number conversions (see
RateRow for the convention on discarded unparseable rows). -/
structure PopRow where
  iso : String
  year : ℤ
  population : ℚ
deriving DecidableEq, Repr

/-- Row-processing step of loadPopulations: guards, then keep-the-larger
reconciliation of duplicate keys. -/
def popStep (data : List ((String × ℤ) × ℚ)) (row : PopRow) :
    List ((String × ℤ) × ℚ) :=
  let iso := sUpper (sTrim row.iso)
  if iso = "WLD" then data
  else if !(isCountryIso iso) then data
  else if row.year < 1990 then data
  else if row.population ≤ 0 then data
  else
    let key := (iso, row.year)
    match mapGet data key with
    | some existing =>
      if existing ≠ row.population then mapSet data key (max existing row.population) else data
    | none => mapSet data key row.population

/-- loadPopulations from the homicide pipeline. -/
def loadPopulations (rows : List PopRow) : List ((String × ℤ) × ℚ) :=
  rows.foldl popStep []

/-- Valid population values the input rows offer for one key: the rows that
survive the guards of loadPopulations and carry exactly that key (used to
state what the loaded index holds per key). -/
def popCandidates (rows : List PopRow) (key : String × ℤ) : List ℚ :=
  rows.filterMap fun row =>
    let iso := sUpper (sTrim row.iso)
    if iso = "WLD" then none
    else if !(isCountryIso iso) then none
    else if row.year < 1990 then none
    else if row.population ≤ 0 then none
    else if (iso, row.year) = key then some row.population else none

/-- Value stored per year by the aggregation loop of the homicide run. -/
structure Computed where
  value : ℚ
  coverage : ℚ
deriving DecidableEq, Repr

/-- One pass of the aggregation loop over the population entries of a year:
totalPop, coveredPop and weightedSum, in that order. -/
def yearTotals (populations countryRates : List ((String × ℤ) × ℚ)) (year : ℤ) :
    ℚ × ℚ × ℚ :=
  populations.foldl
    (fun acc e =>
      if e.1.2 = year then
        match mapGet countryRates e.1 with
        | some rate => (acc.1 + e.2, acc.2.1 + e.2, acc.2.2 + rate * e.2)
        | none => (acc.1 + e.2, acc.2.1, acc.2.2)
      else acc)
    (0, 0, 0)

/-- Distinct years of the population index, ascending. -/
def popYears (populations : List ((String × ℤ) × ℚ)) : List ℤ :=
  sortInt ((populations.map fun e => e.1.2).dedup)

/-- Population-weighted aggregation loop of the homicide run: a year with no
population is skipped, a year with no covered population is skipped (with a
coverage warning), otherwise the weighted mean over covered countries and the
population coverage fraction are stored. -/
def homicideComputed (populations countryRates : List ((String × ℤ) × ℚ)) :
    List (ℤ × Computed) :=
  (popYears populations).foldl
    (fun acc year =>
      let t := yearTotals populations countryRates year
      if t.1 ≤ 0 then acc
      else if t.2.1 ≤ 0 then acc
      else mapSet acc year ⟨t.2.2 / t.2.1, t.2.1 / t.1⟩)
    []

/-- Per-year branch of the hybrid output loop of the homicide run: computed
value when coverage reaches 95 percent, else the pre-aggregated WLD value,
else the computed value with a warning; the final throw fires only when the
year has neither. -/
def homicidePointFor (computedByYear : List (ℤ × Computed)) (wldByYear : List (ℤ × ℚ))
    (year : ℤ) : Except String Point :=
  match mapGet computedByYear year with
  | some c =>
    if c.coverage ≥ 95/100 then .ok ⟨year, roundN c.value 3⟩
    else
      match mapGet wldByYear year with
      | some w => .ok ⟨year, roundN w 3⟩
      | none => .ok ⟨year, roundN c.value 3⟩
  | none =>
    match mapGet wldByYear year with
    | some w => .ok ⟨year, roundN w 3⟩
    | none => .error "No bottom-up or WLD value available for year"

/-- Output stage of the homicide run, from the loaded maps to the published
series (or the error that aborts the run). -/
def homicideRun (countryRates populations : List ((String × ℤ) × ℚ))
    (wldByYear : List (ℤ × ℚ)) : Except String (List Point) :=
  let computedByYear := homicideComputed populations countryRates
  let hybridYears := sortInt ((mapKeys computedByYear ++ mapKeys wldByYear).dedup)
  if hybridYears = [] then .error "no output years available"
  else
    match collectE (homicidePointFor computedByYear wldByYear) hybridYears with
    | .error e => .error e
    | .ok pts => .ok (sortPoints pts)

end Homicide

namespace U5

/-- EXCLUDE set of the u5 mortality pipeline. -/
def EXCLUDE : List String :=
  ["WLD", "HIC", "INX", "LIC", "LMC", "MIC", "UMC", "OED", "ARB", "EAP",
   "ECA", "ECS", "EUU", "LCN", "LAC", "MEA", "NAC", "SAS", "SSA", "FCS"]

/-- isIso3 from the u5 mortality pipeline. -/
def isIso3 (code : String) : Bool :=
  Shutdown.isoAlpha3 code && !(EXCLUDE.contains code)

/-- Nested record iso to (year to value), as the u5 pipeline builds for both
mortality and population. -/
def NestedMap : Type := List (String × List (ℤ × ℚ))

/-- One pass of the u5 aggregation loop over the population records of a
year: countries with population (n_pop), countries with population and a
mortality value (n_both), the weighted sum, and the covered population, in
that order. -/
def u5Agg (pop mort : NestedMap) (year : ℤ) : ℕ × ℕ × ℚ × ℚ :=
  pop.foldl
    (fun acc e =>
      match mapGet e.2 year with
      | none => acc
      | some p =>
        match (mapGet mort e.1).bind (fun ym => mapGet ym year) with
        | some u => (acc.1 + 1, acc.2.1 + 1, acc.2.2.1 + u * p, acc.2.2.2 + p)
        | none => (acc.1 + 1, acc.2.1, acc.2.2.1, acc.2.2.2))
    (0, 0, 0, 0)

/-- Coverage computed by the u5 pipeline: the count of countries having both
value and population divided by the count having population (zero when no
country has population). -/
def u5Coverage (pop mort : NestedMap) (year : ℤ) : ℚ :=
  let a := u5Agg pop mort year
  if a.1 = 0 then 0 else (a.2.1 : ℚ) / (a.1 : ℚ)

/-- Covered population of a year (the totalPop accumulator of the loop,
summed over countries that have both value and population). -/
def u5CoveredPop (pop mort : NestedMap) (year : ℤ) : ℚ :=
  (u5Agg pop mort year).2.2.2

/-- Distinct years of the population record, ascending. -/
def u5Years (pop : NestedMap) : List ℤ :=
  sortInt (((pop.map fun e => e.2.map Prod.fst).flatten).dedup)

/-- Published series of the u5 pipeline: one point per year passing the
count-coverage gate at 0.7 with positive covered population, value rounded to
two decimals with Math.round. -/
def u5Data (pop mort : NestedMap) : List Point :=
  (u5Years pop).filterMap fun year =>
    let a := u5Agg pop mort year
    if u5Coverage pop mort year ≥ 7/10 ∧ a.2.2.2 > 0 then
      some ⟨year, (jsRound ((a.2.2.1 / a.2.2.2) * 100) : ℚ) / 100⟩
    else none

/-- Modelled from the specification words only (for comparison with the
code): coverage as covered weight divided by total available weight, i.e.
population of countries having both value and weight over population of all
countries having weight, for a year. -/
def specCoverageByWeight (pop mort : NestedMap) (year : ℤ) : ℚ :=
  let totalWeight := pop.foldl
    (fun s e => match mapGet e.2 year with | some p => s + p | none => s) 0
  let coveredWeight := pop.foldl
    (fun s e =>
      match mapGet e.2 year with
      | some p =>
        match (mapGet mort e.1).bind (fun ym => mapGet ym year) with
        | some _ => s + p
        | none => s
      | none => s) 0
  coveredWeight / totalWeight

end U5

namespace Milex

/-- Index map built by loadDeflator: integer years with a positive parsed
index value (the toNumber failures and non-positive guards drop the row). -/
def buildDeflatorIndex (rows : List (ℤ × ℚ)) : List (ℤ × ℚ) :=
  rows.foldl (fun m r => if r.2 > 0 then mapSet m r.1 r.2 else m) []

/-- loadDeflator from the military-expenditure script: build the index map
and require a truthy entry for the 2020 base year; no other validation of the
base index is performed. -/
def loadDeflatorE (rows : List (ℤ × ℚ)) : Except String (ℚ × List (ℤ × ℚ)) :=
  let indexByYear := buildDeflatorIndex rows
  match mapGet indexByYear 2020 with
  | none => .error "missing GDP deflator value for 2020"
  | some baseIndex =>
    if baseIndex = 0 then .error "missing GDP deflator value for 2020"
    else .ok (baseIndex, indexByYear)

/-- Body of the series loop of the military-expenditure run for one year:
skip when the world total, population or deflator is missing or falsy, else
publish round1 of (total / pop) * (baseIndex / deflator). -/
def milexPointFor (worldTotals population indexByYear : List (ℤ × ℚ)) (baseIndex : ℚ)
    (year : ℤ) : Option Point :=
  match mapGet worldTotals year with
  | none => none
  | some total =>
    match mapGet population year with
    | none => none
    | some pop =>
      if pop = 0 then none
      else
        match mapGet indexByYear year with
        | none => none
        | some deflator =>
          if deflator = 0 then none
          else some ⟨year, round1 (total / pop * (baseIndex / deflator))⟩

/-- Series loop of the military-expenditure run over the ascending
world-total years. -/
def milexSeries (worldTotals population indexByYear : List (ℤ × ℚ)) (baseIndex : ℚ) :
    List Point :=
  (sortInt (mapKeys worldTotals)).filterMap
    (milexPointFor worldTotals population indexByYear baseIndex)

/-- assertAscending of the military-expenditure script, as a predicate: true
exactly when no adjacent pair violates strict year ascent. -/
def ascendingOk : List Point → Bool
  | [] => true
  | [_] => true
  | a :: b :: t => if a.year < b.year then ascendingOk (b :: t) else false

/-- Output stage of the military-expenditure run, from the loaded maps to the
published series (or the error that aborts the run). -/
def milexRun (worldTotals population deflatorRows : List (ℤ × ℚ)) :
    Except String (List Point) :=
  match loadDeflatorE deflatorRows with
  | .error e => .error e
  | .ok (baseIndex, indexByYear) =>
    let series := sortPoints (milexSeries worldTotals population indexByYear baseIndex)
    if ascendingOk series = false then .error "years not strictly ascending"
    else if series = [] then .error "no output rows computed"
    else .ok series

end Milex

/-! Lemmas about the interval union (claim C1). -/

theorem Shutdown.mem_unionSet {l : List Shutdown.YearInterval} {x : ℤ} :
    x ∈ Shutdown.unionSet l ↔ ∃ iv ∈ l, iv.startMs ≤ x ∧ x < iv.endMs := by
  induction l with
  | nil => simp [Shutdown.unionSet]
  | cons iv t ih =>
    simp only [Shutdown.unionSet, List.foldr_cons, Finset.mem_union, Finset.mem_Ico] at *
    constructor
    · rintro (h | h)
      · exact ⟨iv, List.mem_cons_self iv t, h⟩
      · obtain ⟨jv, hm, hb⟩ := ih.mp h
        exact ⟨jv, List.mem_cons_of_mem iv hm, hb⟩
    · rintro ⟨jv, hm, hb⟩
      rcases List.mem_cons.mp hm with rfl | hm
      · exact Or.inl hb
      · exact Or.inr (ih.mpr ⟨jv, hm, hb⟩)

theorem Shutdown.unionSet_eq_of_perm {l l' : List Shutdown.YearInterval}
    (h : l.Perm l') : Shutdown.unionSet l = Shutdown.unionSet l' := by
  ext x
  simp only [Shutdown.mem_unionSet]
  constructor
  · rintro ⟨iv, hm, hb⟩; exact ⟨iv, h.mem_iff.mp hm, hb⟩
  · rintro ⟨iv, hm, hb⟩; exact ⟨iv, h.mem_iff.mpr hm, hb⟩

theorem Shutdown.sweep_eq_card :
    ∀ (t : List Shutdown.YearInterval) (cs ce : ℤ), cs ≤ ce →
    (∀ iv ∈ t, cs ≤ iv.startMs) →
    (∀ iv ∈ t, iv.startMs ≤ iv.endMs) →
    List.Pairwise (fun a b : Shutdown.YearInterval => a.startMs ≤ b.startMs) t →
    Shutdown.sweep cs ce t = ((Finset.Ico cs ce ∪ Shutdown.unionSet t).card : ℤ)
  | [], cs, ce, hle, _, _, _ => by
    simp only [Shutdown.sweep, Shutdown.unionSet, List.foldr_nil, Finset.union_empty,
      Int.card_Ico]
    omega
  | iv :: t, cs, ce, hle, hstart, hwf, hpair => by
    have hcs_iv : cs ≤ iv.startMs := hstart iv (List.mem_cons_self iv t)
    have hiv_wf : iv.startMs ≤ iv.endMs := hwf iv (List.mem_cons_self iv t)
    have hhead : ∀ jv ∈ t, iv.startMs ≤ jv.startMs := (List.pairwise_cons.mp hpair).1
    have hptail : List.Pairwise (fun a b : Shutdown.YearInterval => a.startMs ≤ b.startMs) t :=
      (List.pairwise_cons.mp hpair).2
    have hwtail : ∀ jv ∈ t, jv.startMs ≤ jv.endMs :=
      fun jv hm => hwf jv (List.mem_cons_of_mem iv hm)
    by_cases hc : iv.startMs ≤ ce
    · have hstail : ∀ jv ∈ t, cs ≤ jv.startMs :=
        fun jv hm => le_trans hcs_iv (hhead jv hm)
      have ih := Shutdown.sweep_eq_card t cs (max ce iv.endMs)
        (le_trans hle (le_max_left _ _)) hstail hwtail hptail
      have hset : Finset.Ico cs (max ce iv.endMs) =
          Finset.Ico cs ce ∪ Finset.Ico iv.startMs iv.endMs := by
        ext x
        simp only [Finset.mem_Ico, Finset.mem_union]
        omega
      have : Shutdown.sweep cs ce (iv :: t) = Shutdown.sweep cs (max ce iv.endMs) t := by
        simp only [Shutdown.sweep, if_pos hc]
      rw [this, ih, hset]
      have : Shutdown.unionSet (iv :: t) =
          Finset.Ico iv.startMs iv.endMs ∪ Shutdown.unionSet t := rfl
      rw [this, Finset.union_assoc]
    · push_neg at hc
      have hstail : ∀ jv ∈ t, iv.startMs ≤ jv.startMs := hhead
      have ih := Shutdown.sweep_eq_card t iv.startMs iv.endMs hiv_wf hstail hwtail hptail
      have hstep : Shutdown.sweep cs ce (iv :: t) =
          (ce - cs) + Shutdown.sweep iv.startMs iv.endMs t := by
        simp only [Shutdown.sweep, if_neg (not_le.mpr hc)]
      have hdisj : Disjoint (Finset.Ico cs ce)
          (Finset.Ico iv.startMs iv.endMs ∪ Shutdown.unionSet t) := by
        rw [Finset.disjoint_left]
        intro x hx hx'
        have hxlt : x < ce := (Finset.mem_Ico.mp hx).2
        rcases Finset.mem_union.mp hx' with hm | hm
        · have := (Finset.mem_Ico.mp hm).1
          omega
        · obtain ⟨jv, hjm, hjb⟩ := Shutdown.mem_unionSet.mp hm
          have := hstail jv hjm
          omega
      have : Shutdown.unionSet (iv :: t) =
          Finset.Ico iv.startMs iv.endMs ∪ Shutdown.unionSet t := rfl
      rw [hstep, ih, this, Finset.card_union_of_disjoint hdisj, Int.card_Ico]
      push_cast
      omega

theorem Shutdown.mergeMs_eq_card (l : List Shutdown.YearInterval)
    (h : ∀ iv ∈ l, iv.startMs ≤ iv.endMs) :
    Shutdown.mergeMs l = ((Shutdown.unionSet l).card : ℤ) := by
  have hperm : (Shutdown.sortIntervals l).Perm l :=
    List.perm_insertionSort Shutdown.ivLe l
  have hsorted : List.Sorted Shutdown.ivLe (Shutdown.sortIntervals l) :=
    List.sorted_insertionSort Shutdown.ivLe l
  unfold Shutdown.mergeMs
  rcases hm : Shutdown.sortIntervals l with _ | ⟨hd, t⟩
  · rw [hm] at hperm
    have : l = [] := hperm.symm.eq_nil
    subst this
    simp [Shutdown.unionSet]
  · rw [hm] at hperm hsorted
    have hpair : List.Pairwise
        (fun a b : Shutdown.YearInterval => a.startMs ≤ b.startMs) (hd :: t) := by
      refine hsorted.imp ?_
      intro a b hab
      rcases hab with hlt | ⟨heq, _⟩
      · exact le_of_lt hlt
      · exact le_of_eq heq
    have hmem : ∀ iv ∈ hd :: t, iv.startMs ≤ iv.endMs :=
      fun iv hmm => h iv (hperm.mem_iff.mp hmm)
    have := Shutdown.sweep_eq_card t hd.startMs hd.endMs
      (hmem hd (List.mem_cons_self hd t))
      (List.pairwise_cons.mp hpair).1
      (fun jv hj => hmem jv (List.mem_cons_of_mem hd hj))
      (List.pairwise_cons.mp hpair).2
    show Shutdown.sweep hd.startMs hd.endMs t = ((Shutdown.unionSet l).card : ℤ)
    rw [this]
    have hcons : Finset.Ico hd.startMs hd.endMs ∪ Shutdown.unionSet t =
        Shutdown.unionSet (hd :: t) := rfl
    rw [hcons, Shutdown.unionSet_eq_of_perm hperm]

/-- C1: for every country-year, merging that country-year's sub-intervals
(sort by start instant, sweep-line union, sum closed-union durations) returns
the measure in days of the set union of the intervals: mergeIntervals equals
the cardinality of the covered set of integer milliseconds (the Lebesgue
measure of the union of the half-open interval spans, since all endpoints
are integral) divided by the milliseconds of a day.  In particular, two
overlapping spans covering days 1 to 10 and 5 to 15 of a year merge to 14
days, not 20, and disjoint spans of 5 and 3 days merge to 8. -/
theorem claim1_mergeIntervals_measures_union (l : List Shutdown.YearInterval)
    (h : ∀ iv ∈ l, iv.startMs ≤ iv.endMs) :
    Shutdown.mergeIntervals l =
      ((Shutdown.unionSet l).card : ℚ) / (Shutdown.MS_PER_DAY : ℚ) := by
  unfold Shutdown.mergeIntervals
  rw [Shutdown.mergeMs_eq_card l h]
  push_cast
  ring

/-- Witness for C1 at a concrete overlapping pair (spans 1 to 11 and 5 to 15
in milliseconds, whose union has measure 14). -/
theorem claim1_witness :
    (∀ iv ∈ [Shutdown.YearInterval.mk "IND" "India" 2019 1 11,
             Shutdown.YearInterval.mk "IND" "India" 2019 5 15],
       iv.startMs ≤ iv.endMs) ∧
    Shutdown.mergeIntervals
        [Shutdown.YearInterval.mk "IND" "India" 2019 1 11,
         Shutdown.YearInterval.mk "IND" "India" 2019 5 15] =
      (14 : ℚ) / (Shutdown.MS_PER_DAY : ℚ) := by
  refine ⟨by decide, ?_⟩
  rw [claim1_mergeIntervals_measures_union _ (by decide)]
  norm_num [show (Shutdown.unionSet
    [Shutdown.YearInterval.mk "IND" "India" 2019 1 11,
     Shutdown.YearInterval.mk "IND" "India" 2019 5 15]).card = 14 from by decide]

/-! Lemmas about the ECMA-262 calendar functions (claim C5). -/

theorem Shutdown.dayFromYear_succ (y : ℤ) :
    Shutdown.dayFromYear y + 365 ≤ Shutdown.dayFromYear (y + 1) ∧
    Shutdown.dayFromYear (y + 1) ≤ Shutdown.dayFromYear y + 366 := by
  unfold Shutdown.dayFromYear
  omega

theorem Shutdown.dayFromYear_mono {y y' : ℤ} (h : y ≤ y') :
    Shutdown.dayFromYear y ≤ Shutdown.dayFromYear y' := by
  refine @Int.le_induction
    (fun n => Shutdown.dayFromYear y ≤ Shutdown.dayFromYear n) y (le_refl _) ?_ y' h
  intro n _ ih
  exact le_trans ih (by have := Shutdown.dayFromYear_succ n; omega)

theorem Shutdown.dayFromYear_strict {y y' : ℤ} (h : y < y') :
    Shutdown.dayFromYear y < Shutdown.dayFromYear y' := by
  have h1 := Shutdown.dayFromYear_succ y
  have h2 := Shutdown.dayFromYear_mono (show y + 1 ≤ y' by omega)
  omega

theorem Shutdown.dayFromYear_era (m j : ℤ) :
    Shutdown.dayFromYear (1970 + 400 * m + j) =
      146097 * m + Shutdown.dayFromYear (1970 + j) := by
  unfold Shutdown.dayFromYear
  omega

theorem Shutdown.eraSearch_spec (r : ℤ) (hr : 0 ≤ r) :
    ∀ n : ℕ,
      (0 ≤ Shutdown.eraSearch r n ∧ Shutdown.eraSearch r n ≤ (n : ℤ)) ∧
      Shutdown.dayFromYear (1970 + Shutdown.eraSearch r n) ≤ r ∧
      (∀ k : ℤ, Shutdown.eraSearch r n < k → k ≤ (n : ℤ) →
        r < Shutdown.dayFromYear (1970 + k))
  | 0 => by
    refine ⟨⟨le_refl 0, le_refl 0⟩, ?_, ?_⟩
    · have h0 : (1970 + Shutdown.eraSearch r 0) = 1970 := by
        simp [Shutdown.eraSearch]
      rw [h0, show Shutdown.dayFromYear 1970 = 0 from by decide]
      exact hr
    · intro k h1 h2
      simp only [Shutdown.eraSearch, Nat.cast_zero] at h1 h2
      omega
  | n + 1 => by
    have ih := Shutdown.eraSearch_spec r hr n
    have hunf : Shutdown.eraSearch r (n + 1) =
        if Shutdown.dayFromYear (1970 + ((n : ℤ) + 1)) ≤ r then ((n : ℤ) + 1)
        else Shutdown.eraSearch r n := rfl
    by_cases hc : Shutdown.dayFromYear (1970 + ((n : ℤ) + 1)) ≤ r
    · have hres : Shutdown.eraSearch r (n + 1) = (n : ℤ) + 1 := by
        rw [hunf, if_pos hc]
      refine ⟨⟨by omega, by rw [hres]; push_cast; omega⟩, ?_, ?_⟩
      · rw [hres]; exact hc
      · intro k h1 h2
        rw [hres] at h1
        push_cast at h2
        omega
    · have hres : Shutdown.eraSearch r (n + 1) = Shutdown.eraSearch r n := by
        rw [hunf, if_neg hc]
      refine ⟨⟨by rw [hres]; exact ih.1.1, by rw [hres]; push_cast; omega⟩, ?_, ?_⟩
      · rw [hres]; exact ih.2.1
      · intro k h1 h2
        rw [hres] at h1
        rcases lt_or_ge ((n : ℤ)) k with hk | hk
        · have : k = (n : ℤ) + 1 := by push_cast at h2; omega
          subst this
          omega
        · exact ih.2.2 k h1 hk

theorem Shutdown.yearFromDay_spec (d : ℤ) :
    Shutdown.dayFromYear (Shutdown.yearFromDay d) ≤ d ∧
    d < Shutdown.dayFromYear (Shutdown.yearFromDay d + 1) := by
  set m := d / 146097 with hm
  set r := d % 146097 with hr
  have hr0 : 0 ≤ r := Int.emod_nonneg d (by norm_num)
  have hr1 : r < 146097 := Int.emod_lt_of_pos d (by norm_num)
  have hdecomp : d = 146097 * m + r := by
    rw [hm, hr]
    omega
  set j := Shutdown.eraSearch r 399 with hj
  have hspec := Shutdown.eraSearch_spec r hr0 399
  have hjle : Shutdown.dayFromYear (1970 + j) ≤ r := hspec.2.1
  have hj0 : 0 ≤ j := hspec.1.1
  have hj399 : j ≤ 399 := by exact_mod_cast hspec.1.2
  have hnext : r < Shutdown.dayFromYear (1970 + (j + 1)) := by
    rcases lt_or_ge j 399 with hlt | hge
    · exact hspec.2.2 (j + 1) (by omega) (by push_cast; omega)
    · have hj399' : j = 399 := by omega
      have : Shutdown.dayFromYear (1970 + (j + 1)) = 146097 := by
        rw [hj399']
        decide
      omega
  have hyfd : Shutdown.yearFromDay d = 1970 + 400 * m + j := by
    unfold Shutdown.yearFromDay
    rw [← hm, ← hr, ← hj]
  constructor
  · rw [hyfd, Shutdown.dayFromYear_era]
    omega
  · rw [hyfd, show 1970 + 400 * m + j + 1 = 1970 + 400 * m + (j + 1) by ring,
      Shutdown.dayFromYear_era]
    omega

theorem Shutdown.timeFromYear_le_iff {y t : ℤ} :
    Shutdown.timeFromYear y ≤ t ↔ Shutdown.dayFromYear y ≤ t / 86400000 := by
  unfold Shutdown.timeFromYear
  rw [Int.le_ediv_iff_mul_le (by norm_num : (0:ℤ) < 86400000)]
  omega

theorem Shutdown.yearFromTime_spec (t : ℤ) :
    Shutdown.timeFromYear (Shutdown.yearFromTime t) ≤ t ∧
    t < Shutdown.timeFromYear (Shutdown.yearFromTime t + 1) := by
  have h := Shutdown.yearFromDay_spec (t / 86400000)
  have hyft : Shutdown.yearFromTime t = Shutdown.yearFromDay (t / 86400000) := rfl
  constructor
  · rw [Shutdown.timeFromYear_le_iff, hyft]
    exact h.1
  · by_contra hcon
    push_neg at hcon
    rw [Shutdown.timeFromYear_le_iff, hyft] at hcon
    omega

theorem Shutdown.timeFromYear_mono {y y' : ℤ} (h : y ≤ y') :
    Shutdown.timeFromYear y ≤ Shutdown.timeFromYear y' := by
  unfold Shutdown.timeFromYear
  have := Shutdown.dayFromYear_mono h
  omega

theorem Shutdown.timeFromYear_strict {y y' : ℤ} (h : y < y') :
    Shutdown.timeFromYear y < Shutdown.timeFromYear y' := by
  unfold Shutdown.timeFromYear
  have := Shutdown.dayFromYear_strict h
  omega

theorem Shutdown.yearFromTime_mono {t t' : ℤ} (h : t ≤ t') :
    Shutdown.yearFromTime t ≤ Shutdown.yearFromTime t' := by
  by_contra hcon
  push_neg at hcon
  have h1 := (Shutdown.yearFromTime_spec t).1
  have h2 := (Shutdown.yearFromTime_spec t').2
  have h3 : Shutdown.yearFromTime t' + 1 ≤ Shutdown.yearFromTime t := by omega
  have := Shutdown.timeFromYear_mono h3
  omega

theorem filterMapTotal {α β : Type} (f : α → Option β) (g : α → β) :
    ∀ l : List α, (∀ a ∈ l, f a = some (g a)) → l.filterMap f = l.map g
  | [], _ => rfl
  | a :: t, h => by
    rw [List.filterMap_cons, List.map_cons, h a (List.mem_cons_self a t),
      filterMapTotal f g t (fun b hb => h b (List.mem_cons_of_mem a hb))]

theorem sumTelescope (F : ℕ → ℤ) :
    ∀ n : ℕ, ((List.range n).map (fun k => F (k + 1) - F k)).sum = F n - F 0
  | 0 => by simp
  | n + 1 => by
    rw [List.range_succ, List.map_append, List.sum_append, sumTelescope F n]
    simp only [List.map_cons, List.map_nil, List.sum_cons, List.sum_nil]
    ring

/-- C5: for every normalized event with a nonempty span, splitByYear
produces exactly one sub-interval per calendar year the span touches (one
existential witness per touched year, with no duplicate years), each
sub-interval is the intersection of the span with the UTC window of its year
(hence clipped to that window), and the sub-interval durations sum to the
event duration. -/
theorem claim5_splitByYear_partition (ev : Shutdown.NEvent)
    (h : ev.startMs < ev.endMs) :
    (∀ y : ℤ, (∃ iv ∈ Shutdown.splitByYear ev, iv.year = y) ↔ Shutdown.touchesYear ev y) ∧
    ((Shutdown.splitByYear ev).map (fun iv => iv.year)).Nodup ∧
    (∀ iv ∈ Shutdown.splitByYear ev,
       iv.startMs = max ev.startMs (Shutdown.timeFromYear iv.year) ∧
       iv.endMs = min ev.endMs (Shutdown.timeFromYear (iv.year + 1)) ∧
       Shutdown.timeFromYear iv.year ≤ iv.startMs ∧
       iv.endMs ≤ Shutdown.timeFromYear (iv.year + 1)) ∧
    ((Shutdown.splitByYear ev).map (fun iv => iv.endMs - iv.startMs)).sum =
      ev.endMs - ev.startMs := by
  set s := ev.startMs with hs
  set e := ev.endMs with he
  set sy := Shutdown.yearFromTime s with hsy
  set ey := Shutdown.yearFromTime (e - 1) with hey
  have hA1 : Shutdown.timeFromYear sy ≤ s := (Shutdown.yearFromTime_spec s).1
  have hA2 : s < Shutdown.timeFromYear (sy + 1) := (Shutdown.yearFromTime_spec s).2
  have hB1 : Shutdown.timeFromYear ey ≤ e - 1 := (Shutdown.yearFromTime_spec (e - 1)).1
  have hB2 : e - 1 < Shutdown.timeFromYear (ey + 1) := (Shutdown.yearFromTime_spec (e - 1)).2
  have hC : sy ≤ ey := Shutdown.yearFromTime_mono (by omega)
  set n := (ey - sy + 1).toNat with hn
  have hnz : (n : ℤ) = ey - sy + 1 := by rw [hn]; omega
  have hcond : ∀ k : ℕ, (k : ℤ) ≤ ey - sy →
      max s (Shutdown.timeFromYear (sy + k)) <
        min e (Shutdown.timeFromYear (sy + k + 1)) := by
    intro k hk
    have h1 : Shutdown.timeFromYear (sy + 1) ≤ Shutdown.timeFromYear (sy + k + 1) :=
      Shutdown.timeFromYear_mono (by omega)
    have h2 : Shutdown.timeFromYear (sy + k) ≤ Shutdown.timeFromYear ey :=
      Shutdown.timeFromYear_mono (by omega)
    have h3 : Shutdown.timeFromYear (sy + k) < Shutdown.timeFromYear (sy + k + 1) :=
      Shutdown.timeFromYear_strict (by omega)
    omega
  have hsplit : Shutdown.splitByYear ev =
      (List.range n).map (fun k : ℕ =>
        Shutdown.YearInterval.mk ev.iso3 ev.country (sy + (k : ℤ))
          (max s (Shutdown.timeFromYear (sy + (k : ℤ))))
          (min e (Shutdown.timeFromYear (sy + (k : ℤ) + 1)))) := by
    simp only [Shutdown.splitByYear]
    rw [← hs, ← he, ← hsy, ← hey, ← hn]
    refine filterMapTotal _ _ (List.range n) ?_
    intro k hk
    have hklt : (k : ℤ) ≤ ey - sy := by
      have := List.mem_range.mp hk
      omega
    rw [if_neg (not_le.mpr (hcond k hklt))]
  have htouch : ∀ y : ℤ, Shutdown.touchesYear ev y ↔ (sy ≤ y ∧ y ≤ ey) := by
    intro y
    constructor
    · intro ht
      unfold Shutdown.touchesYear at ht
      rw [← hs, ← he] at ht
      constructor
      · by_contra hcon
        push_neg at hcon
        have := Shutdown.timeFromYear_mono (show y + 1 ≤ sy by omega)
        omega
      · by_contra hcon
        push_neg at hcon
        have := Shutdown.timeFromYear_mono (show ey + 1 ≤ y by omega)
        omega
    · rintro ⟨h1, h2⟩
      unfold Shutdown.touchesYear
      rw [← hs, ← he]
      have := hcond (y - sy).toNat (by omega)
      rw [show sy + ((y - sy).toNat : ℤ) = y by omega] at this
      exact this
  refine ⟨?_, ?_, ?_, ?_⟩
  · intro y
    rw [htouch y, hsplit]
    constructor
    · rintro ⟨iv, hm, rfl⟩
      obtain ⟨k, hk, rfl⟩ := List.mem_map.mp hm
      have := List.mem_range.mp hk
      show sy ≤ sy + (k : ℤ) ∧ sy + (k : ℤ) ≤ ey
      omega
    · rintro ⟨h1, h2⟩
      refine ⟨_, List.mem_map.mpr ⟨(y - sy).toNat, List.mem_range.mpr ?_, rfl⟩, ?_⟩
      · omega
      · show sy + (((y - sy).toNat : ℕ) : ℤ) = y
        omega
  · rw [hsplit, List.map_map]
    have hcomp : ((fun iv : Shutdown.YearInterval => iv.year) ∘ fun k : ℕ =>
        Shutdown.YearInterval.mk ev.iso3 ev.country (sy + (k : ℤ))
          (max s (Shutdown.timeFromYear (sy + (k : ℤ))))
          (min e (Shutdown.timeFromYear (sy + (k : ℤ) + 1)))) =
        fun k : ℕ => sy + (k : ℤ) := rfl
    rw [hcomp]
    exact (List.nodup_range n).map (fun a b hab => by omega)
  · intro iv hm
    rw [hsplit] at hm
    obtain ⟨k, hk, rfl⟩ := List.mem_map.mp hm
    refine ⟨rfl, rfl, le_max_right _ _, min_le_right _ _⟩
  · rw [hsplit, List.map_map]
    have hfun : ((fun iv : Shutdown.YearInterval => iv.endMs - iv.startMs) ∘ fun k : ℕ =>
        Shutdown.YearInterval.mk ev.iso3 ev.country (sy + (k : ℤ))
          (max s (Shutdown.timeFromYear (sy + (k : ℤ))))
          (min e (Shutdown.timeFromYear (sy + (k : ℤ) + 1)))) =
        fun k : ℕ =>
          min e (Shutdown.timeFromYear (sy + (k : ℤ) + 1)) -
            max s (Shutdown.timeFromYear (sy + (k : ℤ))) := rfl
    rw [hfun]
    have htele := sumTelescope
      (fun j : ℕ => max s (min e (Shutdown.timeFromYear (sy + (j : ℤ))))) n
    have hterm : ∀ k ∈ List.range n,
        min e (Shutdown.timeFromYear (sy + (k : ℤ) + 1)) -
          max s (Shutdown.timeFromYear (sy + (k : ℤ))) =
        max s (min e (Shutdown.timeFromYear (sy + ((k + 1 : ℕ) : ℤ)))) -
          max s (min e (Shutdown.timeFromYear (sy + (k : ℤ)))) := by
      intro k hk
      have hklt : (k : ℤ) ≤ ey - sy := by
        have := List.mem_range.mp hk
        omega
      have hcast : sy + ((k + 1 : ℕ) : ℤ) = sy + (k : ℤ) + 1 := by push_cast; ring
      rw [hcast]
      have h1 : Shutdown.timeFromYear (sy + 1) ≤
          Shutdown.timeFromYear (sy + (k : ℤ) + 1) :=
        Shutdown.timeFromYear_mono (by omega)
      have h2 : Shutdown.timeFromYear (sy + (k : ℤ)) ≤ Shutdown.timeFromYear ey :=
        Shutdown.timeFromYear_mono (by omega)
      omega
    rw [List.map_congr_left hterm, htele]
    have hzero : sy + ((0 : ℕ) : ℤ) = sy := by push_cast; ring
    have hni : sy + ((n : ℕ) : ℤ) = ey + 1 := by omega
    rw [hzero, hni]
    omega

/-! Generic lemmas about the association-list model of Map. -/

theorem mapGet_cons {κ α : Type} [BEq κ] (k₁ : κ) (v₁ : α) (t : List (κ × α)) (k : κ) :
    mapGet ((k₁, v₁) :: t) k = if k == k₁ then some v₁ else mapGet t k := by
  simp only [mapGet, List.lookup]
  cases hb : k == k₁ <;> simp [hb]

theorem mapGet_mapSet {κ α : Type} [BEq κ] [LawfulBEq κ] :
    ∀ (m : List (κ × α)) (k k' : κ) (v : α),
    mapGet (mapSet m k v) k' = if k' == k then some v else mapGet m k'
  | [], k, k', v => by
    simp only [mapSet, mapGet, List.lookup]
    cases hb : k' == k <;> simp [hb]
  | (k₁, v₁) :: t, k, k', v => by
    simp only [mapSet]
    by_cases h1 : (k₁ == k) = true
    · have h1' : k₁ = k := eq_of_beq h1
      subst h1'
      rw [if_pos h1, mapGet_cons, mapGet_cons]
      cases hb : k' == k₁ <;> simp [hb]
    · rw [if_neg h1, mapGet_cons, mapGet_cons]
      cases hb : k' == k₁ with
      | true =>
        have hbe : k' = k₁ := eq_of_beq hb
        subst hbe
        have hkk : (k' == k) = false := by
          cases hkb : k' == k
          · rfl
          · exact absurd hkb h1
        simp [hkk]
      | false =>
        simp only [Bool.false_eq_true, if_false]
        exact mapGet_mapSet t k k' v

theorem mapGet_isSome_iff {κ α : Type} [BEq κ] [LawfulBEq κ] :
    ∀ (m : List (κ × α)) (k : κ), (∃ v, mapGet m k = some v) ↔ k ∈ m.map Prod.fst
  | [], k => by simp [mapGet, List.lookup]
  | (k₁, v₁) :: t, k => by
    rw [mapGet_cons]
    by_cases h : k = k₁
    · subst h
      simp
    · have h' : (k == k₁) = false := by
        rcases hb : k == k₁ with _ | _
        · rfl
        · exact absurd (eq_of_beq hb) h
      have ih := mapGet_isSome_iff t k
      simp only [List.map_cons, List.mem_cons]
      rw [← ih]
      simp [h', h]

theorem mapGet_mem_keys {κ α : Type} [BEq κ] [LawfulBEq κ] [DecidableEq κ]
    (m : List (κ × α)) (k : κ) (h : k ∈ mapKeys m) : ∃ v, mapGet m k = some v := by
  rw [mapGet_isSome_iff]
  exact (List.mem_dedup.mp h)

theorem mergeMax_assoc (a b c : Option ℚ) :
    mergeMax (mergeMax a b) c = mergeMax a (mergeMax b c) := by
  cases a <;> cases b <;> cases c <;> simp [mergeMax, max_assoc]

theorem foldl_optMax (l : List ℚ) :
    ∀ a : Option ℚ, l.foldl optMax a = mergeMax a (maxQ l) := by
  induction l with
  | nil => intro a; cases a <;> simp [maxQ, mergeMax]
  | cons x t ih =>
    intro a
    have h1 : (x :: t).foldl optMax a = t.foldl optMax (optMax a x) := by
      simp [List.foldl_cons]
    have h2 : maxQ (x :: t) = mergeMax (some x) (maxQ t) := by
      show (x :: t).foldl optMax none = _
      rw [List.foldl_cons, ih (optMax none x)]
      simp [optMax]
    rw [h1, ih (optMax a x), h2, ← mergeMax_assoc]
    congr 1
    cases a <;> simp [optMax, mergeMax]

/-! Claim C10: the population loader keeps the largest valid value per key. -/

theorem mergeMax_none (a : Option ℚ) : mergeMax a none = a := by
  cases a <;> simp [mergeMax]

theorem maxQ_nil : maxQ [] = none := rfl

theorem maxQ_single (x : ℚ) : maxQ [x] = some x := rfl

theorem Homicide.popStep_key_eq (data : List ((String × ℤ) × ℚ)) (row : Homicide.PopRow)
    (key : String × ℤ) :
    mapGet (Homicide.popStep data row) key =
      mergeMax (mapGet data key)
        (maxQ (Homicide.popCandidates [row] key)) := by
  by_cases hW : sUpper (sTrim row.iso) = "WLD"
  · have hcand : Homicide.popCandidates [row] key = [] := by
      simp [Homicide.popCandidates, hW]
    have hstep : Homicide.popStep data row = data := by
      simp [Homicide.popStep, hW]
    rw [hstep, hcand, maxQ_nil, mergeMax_none]
  · by_cases hC : Homicide.isCountryIso (sUpper (sTrim row.iso)) = true
    · by_cases hY : row.year < 1990
      · have hcand : Homicide.popCandidates [row] key = [] := by
          simp [Homicide.popCandidates, hW, hC, hY]
        have hstep : Homicide.popStep data row = data := by
          simp [Homicide.popStep, hW, hC, hY]
        rw [hstep, hcand, maxQ_nil, mergeMax_none]
      · by_cases hP : row.population ≤ 0
        · have hcand : Homicide.popCandidates [row] key = [] := by
            simp [Homicide.popCandidates, hW, hC, hY, hP]
          have hstep : Homicide.popStep data row = data := by
            simp [Homicide.popStep, hW, hC, hY, hP]
          rw [hstep, hcand, maxQ_nil, mergeMax_none]
        · by_cases hK : (sUpper (sTrim row.iso), row.year) = key
          · have hcand : Homicide.popCandidates [row] key = [row.population] := by
              simp [Homicide.popCandidates, hW, hC, hY, hP, hK]
            rw [hcand, maxQ_single, ← hK]
            cases hm : mapGet data (sUpper (sTrim row.iso), row.year) with
            | none =>
              have hstep : Homicide.popStep data row =
                  mapSet data (sUpper (sTrim row.iso), row.year) row.population := by
                simp [Homicide.popStep, hW, hC, hY, hP, hm]
              rw [hstep, mapGet_mapSet, hm]
              simp [mergeMax]
            | some ex =>
              by_cases hEq : ex = row.population
              · have hstep : Homicide.popStep data row = data := by
                  simp [Homicide.popStep, hW, hC, hY, hP, hm, hEq]
                rw [hstep, hm, hEq]
                simp [mergeMax, max_self]
              · have hstep : Homicide.popStep data row =
                    mapSet data (sUpper (sTrim row.iso), row.year)
                      (max ex row.population) := by
                  simp [Homicide.popStep, hW, hC, hY, hP, hm, hEq]
                rw [hstep, mapGet_mapSet, hm]
                simp [mergeMax]
          · have hcand : Homicide.popCandidates [row] key = [] := by
              simp [Homicide.popCandidates, hW, hC, hY, hP, hK]
            rw [hcand, maxQ_nil, mergeMax_none]
            have hne : (key == (sUpper (sTrim row.iso), row.year)) = false := by
              rcases hb : key == (sUpper (sTrim row.iso), row.year) with _ | _
              · rfl
              · exact absurd (eq_of_beq hb).symm hK
            cases hm : mapGet data (sUpper (sTrim row.iso), row.year) with
            | none =>
              have hstep : Homicide.popStep data row =
                  mapSet data (sUpper (sTrim row.iso), row.year) row.population := by
                simp [Homicide.popStep, hW, hC, hY, hP, hm]
              rw [hstep, mapGet_mapSet, hne]
              simp
            | some ex =>
              by_cases hEq : ex = row.population
              · have hstep : Homicide.popStep data row = data := by
                  simp [Homicide.popStep, hW, hC, hY, hP, hm, hEq]
                rw [hstep]
              · have hstep : Homicide.popStep data row =
                    mapSet data (sUpper (sTrim row.iso), row.year)
                      (max ex row.population) := by
                  simp [Homicide.popStep, hW, hC, hY, hP, hm, hEq]
                rw [hstep, mapGet_mapSet, hne]
                simp
    · have hC' : Homicide.isCountryIso (sUpper (sTrim row.iso)) = false := by
        revert hC
        cases Homicide.isCountryIso (sUpper (sTrim row.iso)) <;> simp
      have hcand : Homicide.popCandidates [row] key = [] := by
        simp [Homicide.popCandidates, hW, hC']
      have hstep : Homicide.popStep data row = data := by
        simp [Homicide.popStep, hW, hC']
      rw [hstep, hcand, maxQ_nil, mergeMax_none]

theorem Homicide.popCandidates_append (r1 r2 : List Homicide.PopRow) (key : String × ℤ) :
    Homicide.popCandidates (r1 ++ r2) key =
      Homicide.popCandidates r1 key ++ Homicide.popCandidates r2 key := by
  unfold Homicide.popCandidates
  rw [List.filterMap_append]

theorem Homicide.loadPopulations_aux (key : String × ℤ) :
    ∀ (rows : List Homicide.PopRow) (acc : List ((String × ℤ) × ℚ)),
    mapGet (rows.foldl Homicide.popStep acc) key =
      mergeMax (mapGet acc key) (maxQ (Homicide.popCandidates rows key))
  | [], acc => by
    cases hm : mapGet acc key <;> simp [Homicide.popCandidates, maxQ, mergeMax, hm]
  | row :: rest, acc => by
    rw [List.foldl_cons, Homicide.loadPopulations_aux key rest (Homicide.popStep acc row),
      Homicide.popStep_key_eq]
    have hcons : Homicide.popCandidates (row :: rest) key =
        Homicide.popCandidates [row] key ++ Homicide.popCandidates rest key := by
      have : (row :: rest) = [row] ++ rest := rfl
      rw [this, Homicide.popCandidates_append]
    rw [hcons]
    have hmaxapp : ∀ l1 l2 : List ℚ,
        maxQ (l1 ++ l2) = mergeMax (maxQ l1) (maxQ l2) := by
      intro l1 l2
      show (l1 ++ l2).foldl optMax none = _
      rw [List.foldl_append, foldl_optMax]
      rfl
    rw [hmaxapp, mergeMax_assoc]

/-- C10: in the homicide pipeline population loader, when two valid rows give
different positive populations for the same key the larger is kept, and in
general every loaded entry equals the maximum of all valid input populations
for its key (none when the key has no valid row). -/
theorem claim10_populations_keep_max (rows : List Homicide.PopRow) (key : String × ℤ) :
    mapGet (Homicide.loadPopulations rows) key =
      maxQ (Homicide.popCandidates rows key) := by
  unfold Homicide.loadPopulations
  rw [Homicide.loadPopulations_aux key rows []]
  cases hm : maxQ (Homicide.popCandidates rows key) <;>
    simp [mapGet, List.lookup, mergeMax]

/-- C6 (evaluation at the failing input): when the UNODC-coded row arrives
first, a later non-UNODC row that disagrees is averaged into it instead of
the UNODC value being preferred — the stored rate for the key becomes the
mean 6 rather than the UNODC value 5.  The preference branch of loadStep
fires only when the incoming row is UNODC-coded and the stored one is not. -/
theorem claim6_unodc_first_gets_averaged :
    mapGet (Homicide.loadHomicideRates
      [Homicide.RateRow.mk "USA" 2000 5 "UNODC",
       Homicide.RateRow.mk "USA" 2000 7 "WHO"]).1 ("USA", 2000) = some 6 ∧
    (6 : ℚ) ≠ 5 := by
  constructor
  · have h1 : sUpper (sTrim "USA") = "USA" := by decide
    have h2 : Homicide.isCountryIso "USA" = true := by decide
    have h3 : sTrim "UNODC" = "UNODC" := by decide
    have h4 : sTrim "WHO" = "WHO" := by decide
    have h5 : strIncludes (sLower "WHO") "unodc" = false := by decide
    simp only [Homicide.loadHomicideRates, Homicide.loadStep, List.foldl_cons,
      List.foldl_nil, h1, h2, h3, h4, h5]
    norm_num [mapGet, mapSet, List.lookup]
  · norm_num

/-- C9 (evaluation at the failing input): the resolver maps Burma and MMR to
the canonical code MMR and rejects the aggregates World and High income, but
the documented variant Myanmar (Burma) resolves to nothing: its alias-table
key MYANMAR(BURMA) contains a parenthesis, which canonicalizeCountry strips
from every probe, so the entry is unreachable (population data without that
exact canonical name, here empty, cannot rescue it). -/
theorem claim9_resolver_divergence :
    Shutdown.canonicalizeCountry "Myanmar (Burma)" = "MYANMARBURMA" ∧
    mapGet Shutdown.STOP_ALIAS_TO_ISO "MYANMAR(BURMA)" = some "MMR" ∧
    mapGet Shutdown.STOP_ALIAS_TO_ISO "MYANMARBURMA" = none ∧
    (Shutdown.resolveIsoForEvent
      (Shutdown.NEvent.mk "" "Burma" 0 0 false) (Shutdown.PopData.mk [] [])).1 =
        some "MMR" ∧
    (Shutdown.resolveIsoForEvent
      (Shutdown.NEvent.mk "" "MMR" 0 0 false) (Shutdown.PopData.mk [] [])).1 =
        some "MMR" ∧
    (Shutdown.resolveIsoForEvent
      (Shutdown.NEvent.mk "" "Myanmar (Burma)" 0 0 false)
        (Shutdown.PopData.mk [] [])).1 = none ∧
    (Shutdown.resolveIsoForEvent
      (Shutdown.NEvent.mk "" "World" 0 0 false) (Shutdown.PopData.mk [] [])).1 =
        none ∧
    (Shutdown.resolveIsoForEvent
      (Shutdown.NEvent.mk "" "High income" 0 0 false)
        (Shutdown.PopData.mk [] [])).1 = none := by
  refine ⟨by decide, by decide, by decide, by decide, by decide, by decide,
    by decide, by decide⟩

/-- C7 (counterexample): the final rounding step is ECMAScript Math.round,
which sends the negative halfway value -1.5 at precision 0 to -1, while
round-half-away-from-zero sends it to -2; the claim predicts the published
value -2. -/
theorem claim7_negative_tie_counterexample :
    roundN (-3/2) 0 = -1 ∧ roundAwayFromZero (-3/2) 0 = -2 ∧ (-1 : ℚ) ≠ -2 := by
  refine ⟨?_, ?_, by norm_num⟩
  · unfold roundN jsRound
    norm_num
  · unfold roundAwayFromZero jsRound
    rw [if_neg (by norm_num)]
    norm_num

/-- C7 (amended): the final rounding step of roundN and round1 is Math.round
at the fixed precision, i.e. round-half-up with ties toward positive
infinity; on every nonnegative value (every value these pipelines publish,
since rates, populations, and expenditures are nonnegative) it coincides
with round-half-away-from-zero, and only a negative halfway value separates
the two, rounding toward positive infinity instead of away from zero. -/
theorem claim7_round_half_up (v : ℚ) (d : ℕ) (h : 0 ≤ v) :
    roundN v d = roundAwayFromZero v d ∧ round1 v = roundAwayFromZero v 1 := by
  constructor
  · unfold roundAwayFromZero
    rw [if_pos h]
    rfl
  · unfold roundAwayFromZero round1
    rw [if_pos h]
    norm_num

/-- Witness for C7 at the value 3/2 with precision 0. -/
theorem claim7_witness :
    (0 : ℚ) ≤ 3/2 ∧
    (roundN (3/2) 0 = roundAwayFromZero (3/2) 0 ∧
     round1 (3/2) = roundAwayFromZero (3/2) 1) :=
  ⟨by norm_num, claim7_round_half_up (3/2) 0 (by norm_num)⟩

theorem Milex.buildDeflatorIndex_pos :
    ∀ (rows : List (ℤ × ℚ)) (acc : List (ℤ × ℚ)),
    (∀ k v, mapGet acc k = some v → 0 < v) →
    ∀ k v,
      mapGet (rows.foldl (fun m r => if r.2 > 0 then mapSet m r.1 r.2 else m) acc) k =
        some v → 0 < v
  | [], acc, hinv, k, v => by
    intro h
    exact hinv k v h
  | r :: rest, acc, hinv, k, v => by
    intro h
    rw [List.foldl_cons] at h
    by_cases hp : r.2 > 0
    · rw [if_pos hp] at h
      refine Milex.buildDeflatorIndex_pos rest (mapSet acc r.1 r.2) ?_ k v h
      intro k' v' hget
      rw [mapGet_mapSet] at hget
      by_cases hb : (k' == r.1) = true
      · rw [if_pos hb] at hget
        injection hget with hv
        exact hv ▸ hp
      · rw [if_neg hb] at hget
        exact hinv k' v' hget
    · rw [if_neg hp] at h
      exact Milex.buildDeflatorIndex_pos rest acc hinv k v h

/-- C8 (amended): the only deflator guard in the military-expenditure run is
presence: loading succeeds exactly when the parsed deflator data holds a
(positive) index entry for the 2020 base year, and the base index the run
then uses is exactly that entry — no check compares it against 100 within
0.01 or otherwise, so a run whose base index is far from 100 still
publishes. -/
theorem claim8_deflator_guard_is_presence_only (rows : List (ℤ × ℚ)) :
    ((∃ p, Milex.loadDeflatorE rows = .ok p) ↔
      ∃ b, mapGet (Milex.buildDeflatorIndex rows) 2020 = some b) ∧
    (∀ b idx, Milex.loadDeflatorE rows = .ok (b, idx) →
      idx = Milex.buildDeflatorIndex rows ∧ mapGet idx 2020 = some b) := by
  cases hm : mapGet (Milex.buildDeflatorIndex rows) 2020 with
  | none =>
    constructor
    · simp [Milex.loadDeflatorE, hm]
    · intro b idx h
      simp [Milex.loadDeflatorE, hm] at h
  | some b =>
    have hpos : 0 < b := by
      refine Milex.buildDeflatorIndex_pos rows [] ?_ 2020 b hm
      intro k v hget
      simp [mapGet, List.lookup] at hget
    have hne : ¬ b = 0 := ne_of_gt hpos
    constructor
    · simp [Milex.loadDeflatorE, hm, hne]
    · intro b' idx h
      simp only [Milex.loadDeflatorE, hm, if_neg hne] at h
      injection h with hpair
      obtain ⟨hb, hidx⟩ := Prod.mk.injEq .. ▸ hpair
      constructor
      · rw [← hidx]
      · rw [← hidx, hm, hb]

/-- C8 (counterexample): with a deflator table whose 2020 base index is 50,
off from 100 by far more than the claimed 0.01 tolerance, the run does not
fail: load succeeds with base index 50 and the run publishes a series. -/
theorem claim8_base_far_from_100_still_publishes :
    ¬ (|(50 : ℚ) - 100| ≤ 1/100) ∧
    Milex.loadDeflatorE [(2020, 50)] = .ok (50, [(2020, 50)]) ∧
    Milex.milexRun [(2020, 1000)] [(2020, 10)] [(2020, 50)] =
      .ok [Point.mk 2020 100] := by
  have h1 : Milex.buildDeflatorIndex [(2020, 50)] = [(2020, 50)] := by
    norm_num [Milex.buildDeflatorIndex, mapSet]
  have h2 : Milex.loadDeflatorE [(2020, 50)] = .ok (50, [(2020, 50)]) := by
    simp only [Milex.loadDeflatorE, h1, mapGet, List.lookup]
    norm_num
  refine ⟨by norm_num, h2, ?_⟩
  have h3 : Milex.milexSeries [(2020, 1000)] [(2020, 10)] [(2020, 50)] 50 =
      [Point.mk 2020 100] := by
    simp only [Milex.milexSeries, Milex.milexPointFor, mapKeys, sortInt,
      List.map_cons, List.map_nil,
      List.dedup_cons_of_not_mem, List.dedup_nil, List.insertionSort,
      List.orderedInsert, List.filterMap_cons, List.filterMap_nil,
      mapGet, List.lookup]
    norm_num [round1, jsRound]
  simp only [Milex.milexRun, h2, h3]
  norm_num [sortPoints, List.insertionSort, List.orderedInsert, Milex.ascendingOk]

theorem U5.u5Data_eq (pop mort : U5.NestedMap) :
    U5.u5Data pop mort = (U5.u5Years pop).filterMap (fun year =>
      if 7/10 ≤ U5.u5Coverage pop mort year ∧ 0 < U5.u5CoveredPop pop mort year then
        some (Point.mk year
          ((jsRound (((U5.u5Agg pop mort year).2.2.1 /
            (U5.u5Agg pop mort year).2.2.2) * 100) : ℚ) / 100))
      else none) := rfl

/-- C2 (amended): the weighted aggregator of the u5 mortality pipeline emits
a year exactly when its COUNT-based coverage — countries having both a value
and a population, divided by countries having a population — reaches the 0.7
threshold and the summed covered population is positive; coverage is not the
covered-weight share, and a year failing the gate is dropped entirely (never
interpolated or zero-filled). -/
theorem claim2_year_published_iff_count_gate (pop mort : U5.NestedMap) (y : ℤ) :
    (∃ p ∈ U5.u5Data pop mort, p.year = y) ↔
      (y ∈ U5.u5Years pop ∧ 7/10 ≤ U5.u5Coverage pop mort y ∧
        0 < U5.u5CoveredPop pop mort y) := by
  rw [U5.u5Data_eq]
  constructor
  · rintro ⟨p, hp, hpy⟩
    obtain ⟨y', hy', hf⟩ := List.mem_filterMap.mp hp
    by_cases hc : 7/10 ≤ U5.u5Coverage pop mort y' ∧ 0 < U5.u5CoveredPop pop mort y'
    · rw [if_pos hc] at hf
      injection hf with hf
      rw [← hf] at hpy
      have hyy : y' = y := hpy
      subst hyy
      exact ⟨hy', hc.1, hc.2⟩
    · rw [if_neg hc] at hf
      cases hf
  · rintro ⟨hy, hc1, hc2⟩
    exact ⟨_, List.mem_filterMap.mpr ⟨y, hy, by rw [if_pos ⟨hc1, hc2⟩]⟩, rfl⟩

/-- C2 (counterexample): a year 2000 whose covered-weight share is 1000/1002,
far above the 0.7 threshold (one large covered country among two tiny
uncovered ones), with positive covered weight, is nevertheless dropped by the
u5 aggregator, because its count-based coverage is 1/3; the claim predicts
the year is emitted. -/
theorem claim2_weight_coverage_counterexample :
    7/10 ≤ U5.specCoverageByWeight
      [("AAA", [((2000 : ℤ), (1000 : ℚ))]), ("BBB", [(2000, 1)]), ("CCC", [(2000, 1)])]
      [("AAA", [(2000, 10)])] 2000 ∧
    0 < U5.u5CoveredPop
      [("AAA", [((2000 : ℤ), (1000 : ℚ))]), ("BBB", [(2000, 1)]), ("CCC", [(2000, 1)])]
      [("AAA", [(2000, 10)])] 2000 ∧
    U5.u5Data
      [("AAA", [((2000 : ℤ), (1000 : ℚ))]), ("BBB", [(2000, 1)]), ("CCC", [(2000, 1)])]
      [("AAA", [(2000, 10)])] = [] := by
  have hb1 : (("BBB" == "AAA") : Bool) = false := by decide
  have hb2 : (("CCC" == "AAA") : Bool) = false := by decide
  have hb3 : (("AAA" == "AAA") : Bool) = true := by decide
  have hagg : U5.u5Agg
      [("AAA", [((2000 : ℤ), (1000 : ℚ))]), ("BBB", [(2000, 1)]), ("CCC", [(2000, 1)])]
      [("AAA", [(2000, 10)])] 2000 = (3, 1, 10000, 1000) := by
    simp only [U5.u5Agg, List.foldl_cons, List.foldl_nil, mapGet, List.lookup,
      hb1, hb2, hb3]
    norm_num
  have hcovered : U5.u5CoveredPop
      [("AAA", [((2000 : ℤ), (1000 : ℚ))]), ("BBB", [(2000, 1)]), ("CCC", [(2000, 1)])]
      [("AAA", [(2000, 10)])] 2000 = 1000 := by
    unfold U5.u5CoveredPop
    rw [hagg]
  have hcov : U5.u5Coverage
      [("AAA", [((2000 : ℤ), (1000 : ℚ))]), ("BBB", [(2000, 1)]), ("CCC", [(2000, 1)])]
      [("AAA", [(2000, 10)])] 2000 = 1/3 := by
    unfold U5.u5Coverage
    rw [hagg]
    norm_num
  refine ⟨?_, ?_, ?_⟩
  · simp only [U5.specCoverageByWeight, List.foldl_cons, List.foldl_nil, mapGet,
      List.lookup, hb1, hb2, hb3]
    norm_num
  · rw [hcovered]
    norm_num
  · rw [U5.u5Data_eq]
    have hyears : U5.u5Years
        [("AAA", [((2000 : ℤ), (1000 : ℚ))]), ("BBB", [(2000, 1)]), ("CCC", [(2000, 1)])] =
        [2000] := by
      simp [U5.u5Years, sortInt, List.insertionSort, List.orderedInsert]
    rw [hyears, List.filterMap_cons]
    rw [if_neg (by rw [hcov]; norm_num)]
    rfl

/-! Helper lemmas about sorting, traversal, and the homicide and milex runs
(claims C3 and C4). -/

theorem sortPoints_strict (l : List Point)
    (h : List.Pairwise (fun a b : Point => a.year ≠ b.year) l) :
    List.Pairwise (fun a b : Point => a.year < b.year) (sortPoints l) := by
  have hsorted : List.Sorted pointLe (sortPoints l) :=
    List.sorted_insertionSort pointLe l
  have hperm : (sortPoints l).Perm l := List.perm_insertionSort pointLe l
  have hne : List.Pairwise (fun a b : Point => a.year ≠ b.year) (sortPoints l) :=
    (List.Perm.pairwise_iff (fun hab => Ne.symm hab) hperm).mpr h
  exact (hsorted.and hne).imp (fun hab => lt_of_le_of_ne hab.1 hab.2)

theorem mem_sortInt (l : List ℤ) (y : ℤ) : y ∈ sortInt l ↔ y ∈ l :=
  (List.perm_insertionSort (· ≤ ·) l).mem_iff

theorem sortInt_nodup (l : List ℤ) (h : l.Nodup) : (sortInt l).Nodup :=
  ((List.perm_insertionSort (· ≤ ·) l).nodup_iff).mpr h

theorem sortInt_pairwise_lt (l : List ℤ) (h : l.Nodup) :
    List.Pairwise (· < ·) (sortInt l) := by
  have hsorted : List.Sorted (· ≤ ·) (sortInt l) :=
    List.sorted_insertionSort (· ≤ ·) l
  have hne : List.Pairwise (· ≠ ·) (sortInt l) := sortInt_nodup l h
  exact (hsorted.and hne).imp (fun hab => lt_of_le_of_ne hab.1 hab.2)

theorem filterMap_year_pairwise {R : ℤ → ℤ → Prop} (f : ℤ → Option Point)
    (hf : ∀ y p, f y = some p → p.year = y) (l : List ℤ)
    (h : List.Pairwise R l) :
    List.Pairwise (fun a b : Point => R a.year b.year) (l.filterMap f) := by
  rw [List.pairwise_filterMap]
  refine h.imp ?_
  intro a b hab p hp q hq
  rw [hf a p hp, hf b q hq]
  exact hab

theorem collectE_total {ε α β : Type} (g : α → Except ε β) :
    ∀ ys : List α, (∀ a ∈ ys, ∃ b, g a = .ok b) →
    ∃ ps, collectE g ys = .ok ps ∧ ∀ a ∈ ys, ∀ b, g a = .ok b → b ∈ ps
  | [], _ => ⟨[], rfl, by simp⟩
  | y :: ys, h => by
    obtain ⟨b, hb⟩ := h y (List.mem_cons_self y ys)
    obtain ⟨ps, hps, hmem⟩ :=
      collectE_total g ys (fun a ha => h a (List.mem_cons_of_mem y ha))
    refine ⟨b :: ps, ?_, ?_⟩
    · simp only [collectE, hb, hps]
    · intro a ha b' hb'
      rcases List.mem_cons.mp ha with rfl | ha
      · rw [hb] at hb'
        injection hb' with hb'
        exact hb' ▸ List.mem_cons_self b ps
      · exact List.mem_cons_of_mem b (hmem a ha b' hb')

theorem collectE_map_eq {ε α β : Type} (g : α → Except ε β) (f : β → α)
    (hf : ∀ a b, g a = .ok b → f b = a) :
    ∀ (ys : List α) (ps : List β), collectE g ys = .ok ps → ps.map f = ys
  | [], ps, h => by
    injection h with h
    rw [← h]
    rfl
  | y :: ys, ps, h => by
    cases hg : g y with
    | error e =>
      simp only [collectE, hg] at h
      exact Except.noConfusion h
    | ok b =>
      cases hc : collectE g ys with
      | error e =>
        simp only [collectE, hg, hc] at h
        exact Except.noConfusion h
      | ok qs =>
        simp only [collectE, hg, hc, Except.ok.injEq] at h
        rw [← h, List.map_cons, hf y b hg, collectE_map_eq g f hf ys qs hc]

theorem Homicide.pointFor_year (computed : List (ℤ × Homicide.Computed))
    (wld : List (ℤ × ℚ)) (y : ℤ) (p : Point)
    (h : Homicide.homicidePointFor computed wld y = .ok p) : p.year = y := by
  cases hc : mapGet computed y with
  | some c =>
    by_cases hcov : c.coverage ≥ 95/100
    · simp only [Homicide.homicidePointFor, hc, if_pos hcov, Except.ok.injEq] at h
      rw [← h]
    · cases hw : mapGet wld y with
      | some w =>
        simp only [Homicide.homicidePointFor, hc, if_neg hcov, hw,
          Except.ok.injEq] at h
        rw [← h]
      | none =>
        simp only [Homicide.homicidePointFor, hc, if_neg hcov, hw,
          Except.ok.injEq] at h
        rw [← h]
  | none =>
    cases hw : mapGet wld y with
    | some w =>
      simp only [Homicide.homicidePointFor, hc, hw, Except.ok.injEq] at h
      rw [← h]
    | none =>
      simp only [Homicide.homicidePointFor, hc, hw] at h
      exact Except.noConfusion h

theorem Homicide.pointFor_total (computed : List (ℤ × Homicide.Computed))
    (wld : List (ℤ × ℚ)) (y : ℤ)
    (h : (∃ c, mapGet computed y = some c) ∨ (∃ w, mapGet wld y = some w)) :
    ∃ p, Homicide.homicidePointFor computed wld y = .ok p := by
  cases hc : mapGet computed y with
  | some c =>
    by_cases hcov : c.coverage ≥ 95/100
    · exact ⟨_, by simp only [Homicide.homicidePointFor, hc, if_pos hcov]; rfl⟩
    · cases hw : mapGet wld y with
      | some w =>
        exact ⟨_, by simp only [Homicide.homicidePointFor, hc, if_neg hcov, hw]; rfl⟩
      | none =>
        exact ⟨_, by simp only [Homicide.homicidePointFor, hc, if_neg hcov, hw]; rfl⟩
  | none =>
    cases hw : mapGet wld y with
    | some w => exact ⟨_, by simp only [Homicide.homicidePointFor, hc, hw]; rfl⟩
    | none =>
      rcases h with ⟨c, hcc⟩ | ⟨w, hww⟩
      · rw [hc] at hcc; exact Option.noConfusion hcc
      · rw [hw] at hww; exact Option.noConfusion hww

theorem Homicide.homicideRun_ok (countryRates populations : List ((String × ℤ) × ℚ))
    (wld : List (ℤ × ℚ)) (out : List Point)
    (h : Homicide.homicideRun countryRates populations wld = .ok out) :
    ∃ ps, collectE (Homicide.homicidePointFor
        (Homicide.homicideComputed populations countryRates) wld)
        (sortInt ((mapKeys (Homicide.homicideComputed populations countryRates) ++
          mapKeys wld).dedup)) = .ok ps ∧ out = sortPoints ps := by
  simp only [Homicide.homicideRun] at h
  by_cases hne : sortInt ((mapKeys (Homicide.homicideComputed populations countryRates) ++
      mapKeys wld).dedup) = []
  · rw [if_pos hne] at h
    simp at h
  · rw [if_neg hne] at h
    cases hc : collectE (Homicide.homicidePointFor
        (Homicide.homicideComputed populations countryRates) wld)
        (sortInt ((mapKeys (Homicide.homicideComputed populations countryRates) ++
          mapKeys wld).dedup)) with
    | error e =>
      rw [hc] at h
      simp at h
    | ok ps =>
      rw [hc] at h
      simp only [Except.ok.injEq] at h
      exact ⟨ps, rfl, h.symm⟩

theorem Milex.milexPointFor_year (worldTotals population indexByYear : List (ℤ × ℚ))
    (baseIndex : ℚ) (y : ℤ) (p : Point)
    (h : Milex.milexPointFor worldTotals population indexByYear baseIndex y = some p) :
    p.year = y := by
  cases h1 : mapGet worldTotals y with
  | none =>
    simp only [Milex.milexPointFor, h1] at h
    exact Option.noConfusion h
  | some total =>
    cases h2 : mapGet population y with
    | none =>
      simp only [Milex.milexPointFor, h1, h2] at h
      exact Option.noConfusion h
    | some pop =>
      by_cases h3 : pop = 0
      · simp only [Milex.milexPointFor, h1, h2, if_pos h3] at h
        exact Option.noConfusion h
      · cases h4 : mapGet indexByYear y with
        | none =>
          simp only [Milex.milexPointFor, h1, h2, if_neg h3, h4] at h
          exact Option.noConfusion h
        | some deflator =>
          by_cases h5 : deflator = 0
          · simp only [Milex.milexPointFor, h1, h2, if_neg h3, h4, if_pos h5] at h
            exact Option.noConfusion h
          · simp only [Milex.milexPointFor, h1, h2, if_neg h3, h4, if_neg h5,
              Option.some.injEq] at h
            rw [← h]

theorem Milex.milexRun_ok (worldTotals population deflatorRows : List (ℤ × ℚ))
    (out : List Point)
    (h : Milex.milexRun worldTotals population deflatorRows = .ok out) :
    ∃ b idx, Milex.loadDeflatorE deflatorRows = .ok (b, idx) ∧
      out = sortPoints (Milex.milexSeries worldTotals population idx b) := by
  cases hd : Milex.loadDeflatorE deflatorRows with
  | error e =>
    simp only [Milex.milexRun, hd] at h
    exact Except.noConfusion h
  | ok pr =>
    obtain ⟨b, idx⟩ := pr
    simp only [Milex.milexRun, hd] at h
    by_cases ha : Milex.ascendingOk
        (sortPoints (Milex.milexSeries worldTotals population idx b)) = false
    · rw [if_pos ha] at h
      simp at h
    · rw [if_neg ha] at h
      by_cases he : sortPoints (Milex.milexSeries worldTotals population idx b) = []
      · rw [if_pos he] at h
        simp at h
      · rw [if_neg he] at h
        simp only [Except.ok.injEq] at h
        exact ⟨b, idx, rfl, h.symm⟩

/-- Concrete homicide aggregation used by several evaluations below: one
covered country of population 100 with rate 10 and one uncovered country of
population 100 give a single computed year 2000 with value 10 and coverage
one half. -/
theorem Homicide.exampleComputed_eval :
    Homicide.homicideComputed
      [(("AAA", (2000 : ℤ)), (100 : ℚ)), (("BBB", 2000), 100)]
      [(("AAA", 2000), 10)] = [(2000, Homicide.Computed.mk 10 (1/2))] := by
  have hb1 : ((("AAA", (2000 : ℤ)) == ("AAA", (2000 : ℤ))) : Bool) = true := by decide
  have hb2 : ((("BBB", (2000 : ℤ)) == ("AAA", (2000 : ℤ))) : Bool) = false := by decide
  have hyt : Homicide.yearTotals
      [(("AAA", (2000 : ℤ)), (100 : ℚ)), (("BBB", 2000), 100)]
      [(("AAA", 2000), 10)] 2000 = (200, 100, 1000) := by
    simp only [Homicide.yearTotals, List.foldl_cons, List.foldl_nil, mapGet,
      List.lookup, hb1, hb2]
    norm_num
  simp only [Homicide.homicideComputed, Homicide.popYears, List.map_cons,
    List.map_nil, sortInt, List.insertionSort, List.orderedInsert,
    List.foldl_cons, List.foldl_nil, hyt]
  norm_num [mapSet]

/-- The homicide run on the same inputs, with no WLD fallback data,
publishes the year despite its 50 percent coverage. -/
theorem Homicide.exampleRun_eval :
    Homicide.homicideRun [(("AAA", (2000 : ℤ)), (10 : ℚ))]
      [(("AAA", 2000), 100), (("BBB", 2000), 100)] [] = .ok [Point.mk 2000 10] := by
  have hpf : Homicide.homicidePointFor [(2000, Homicide.Computed.mk 10 (1/2))] [] 2000 =
      .ok (Point.mk 2000 10) := by
    have hget : mapGet [(2000, Homicide.Computed.mk 10 (1/2))] (2000 : ℤ) =
        some (Homicide.Computed.mk 10 (1/2)) := by
      simp [mapGet, List.lookup]
    simp only [Homicide.homicidePointFor, hget]
    rw [if_neg (by norm_num)]
    have hwld : mapGet ([] : List (ℤ × ℚ)) (2000 : ℤ) = none := rfl
    rw [hwld]
    have hr : roundN (10 : ℚ) 3 = 10 := by
      unfold roundN jsRound
      norm_num
    rw [hr]
  simp only [Homicide.homicideRun, Homicide.exampleComputed_eval, mapKeys,
    List.map_cons, List.map_nil, List.append_nil, sortInt, List.insertionSort,
    List.orderedInsert]
  norm_num [collectE, hpf, sortPoints, List.insertionSort, List.orderedInsert]

/-- Lookup form of the aggregation evaluation. -/
theorem Homicide.exampleComputed_get :
    mapGet (Homicide.homicideComputed
      [(("AAA", (2000 : ℤ)), (100 : ℚ)), (("BBB", 2000), 100)]
      [(("AAA", 2000), 10)]) 2000 = some (Homicide.Computed.mk 10 (1/2)) := by
  rw [Homicide.exampleComputed_eval]
  simp [mapGet, List.lookup]

/-- C3 (amended): in the hybrid homicide run, a year whose bottom-up
coverage is below the 95 percent threshold and which has no pre-aggregated
WLD statistic is still published — the run emits the computed low-confidence
value (rounded to three decimals) with only a warning; the run never fails
on such a year, and no override flag exists in the code. -/
theorem claim3_low_coverage_without_wld_still_published
    (countryRates populations : List ((String × ℤ) × ℚ)) (wldByYear : List (ℤ × ℚ))
    (y : ℤ) (c : Homicide.Computed)
    (hc : mapGet (Homicide.homicideComputed populations countryRates) y = some c)
    (hcov : c.coverage < 95/100)
    (hwld : mapGet wldByYear y = none) :
    ∃ out, Homicide.homicideRun countryRates populations wldByYear = .ok out ∧
      Point.mk y (roundN c.value 3) ∈ out := by
  set computed := Homicide.homicideComputed populations countryRates with hcomp
  set hybridYears := sortInt ((mapKeys computed ++ mapKeys wldByYear).dedup) with hhy
  have hykeys : y ∈ mapKeys computed := by
    rw [mapKeys, List.mem_dedup]
    have := (mapGet_isSome_iff computed y).mp ⟨c, hc⟩
    exact this
  have hymem : y ∈ hybridYears := by
    rw [hhy, mem_sortInt, List.mem_dedup]
    exact List.mem_append.mpr (Or.inl hykeys)
  have hne : hybridYears ≠ [] := List.ne_nil_of_mem hymem
  have htotal : ∀ a ∈ hybridYears,
      ∃ p, Homicide.homicidePointFor computed wldByYear a = .ok p := by
    intro a ha
    apply Homicide.pointFor_total
    rw [hhy, mem_sortInt, List.mem_dedup, List.mem_append] at ha
    rcases ha with ha | ha
    · exact Or.inl (mapGet_mem_keys computed a ha)
    · exact Or.inr (mapGet_mem_keys wldByYear a ha)
  obtain ⟨ps, hps, hmem⟩ := collectE_total _ hybridYears htotal
  have hpf : Homicide.homicidePointFor computed wldByYear y =
      .ok (Point.mk y (roundN c.value 3)) := by
    simp only [Homicide.homicidePointFor, hc, hwld, if_neg (not_le.mpr hcov)]
  refine ⟨sortPoints ps, ?_, ?_⟩
  · simp only [Homicide.homicideRun]
    rw [← hcomp, ← hhy, if_neg hne, hps]
  · exact (List.perm_insertionSort pointLe ps).mem_iff.mpr
      (hmem y hymem (Point.mk y (roundN c.value 3)) hpf)

/-- C3 (counterexample): with rates giving year 2000 coverage one half
(below 0.95) and an empty WLD table, the run does not fail: it returns the
published series containing the low-confidence point. -/
theorem claim3_counterexample_run_succeeds :
    mapGet (Homicide.homicideComputed
      [(("AAA", (2000 : ℤ)), (100 : ℚ)), (("BBB", 2000), 100)]
      [(("AAA", 2000), 10)]) 2000 = some (Homicide.Computed.mk 10 (1/2)) ∧
    (Homicide.Computed.mk (10 : ℚ) (1/2)).coverage < 95/100 ∧
    mapGet ([] : List (ℤ × ℚ)) (2000 : ℤ) = none ∧
    Homicide.homicideRun [(("AAA", (2000 : ℤ)), (10 : ℚ))]
      [(("AAA", 2000), 100), (("BBB", 2000), 100)] [] = .ok [Point.mk 2000 10] :=
  ⟨Homicide.exampleComputed_get, by norm_num, rfl, Homicide.exampleRun_eval⟩

/-- Witness for C3 (amended) at the concrete counterexample inputs. -/
theorem claim3_witness :
    ((Homicide.Computed.mk (10 : ℚ) (1/2)).coverage < 95/100) ∧
    ∃ out, Homicide.homicideRun [(("AAA", (2000 : ℤ)), (10 : ℚ))]
        [(("AAA", 2000), 100), (("BBB", 2000), 100)] [] = .ok out ∧
      Point.mk 2000 (roundN (Homicide.Computed.mk (10 : ℚ) (1/2)).value 3) ∈ out :=
  ⟨by norm_num,
   claim3_low_coverage_without_wld_still_published
     [(("AAA", (2000 : ℤ)), (10 : ℚ))]
     [(("AAA", 2000), 100), (("BBB", 2000), 100)] []
     2000 (Homicide.Computed.mk 10 (1/2))
     Homicide.exampleComputed_get (by norm_num) rfl⟩

/-- C4: every published series has strictly ascending years with no
duplicates — proved for the three embedded pipelines: any successful
homicide run output, any successful military-expenditure run output, and the
u5 mortality series, satisfy year(i) < year(i+1) pairwise. -/
theorem claim4_published_years_strictly_ascending :
    (∀ (countryRates populations : List ((String × ℤ) × ℚ)) (wldByYear : List (ℤ × ℚ))
       (out : List Point),
       Homicide.homicideRun countryRates populations wldByYear = .ok out →
       List.Pairwise (fun a b : Point => a.year < b.year) out) ∧
    (∀ (worldTotals population deflatorRows : List (ℤ × ℚ)) (out : List Point),
       Milex.milexRun worldTotals population deflatorRows = .ok out →
       List.Pairwise (fun a b : Point => a.year < b.year) out) ∧
    (∀ pop mort : U5.NestedMap,
       List.Pairwise (fun a b : Point => a.year < b.year) (U5.u5Data pop mort)) := by
  refine ⟨?_, ?_, ?_⟩
  · intro countryRates populations wldByYear out h
    obtain ⟨ps, hps, hout⟩ :=
      Homicide.homicideRun_ok countryRates populations wldByYear out h
    rw [hout]
    apply sortPoints_strict
    have hmap := collectE_map_eq _ Point.year
      (fun a b hb => Homicide.pointFor_year _ _ a b hb) _ ps hps
    have hnodup : (ps.map Point.year).Nodup := by
      rw [hmap]
      exact sortInt_nodup _ (List.nodup_dedup _)
    have hpw : List.Pairwise (fun a b : Point => Point.year a ≠ Point.year b) ps :=
      List.pairwise_map.mp hnodup
    exact hpw
  · intro worldTotals population deflatorRows out h
    obtain ⟨b, idx, hd, hout⟩ :=
      Milex.milexRun_ok worldTotals population deflatorRows out h
    rw [hout]
    apply sortPoints_strict
    have hbase : (sortInt (mapKeys worldTotals)).Nodup :=
      sortInt_nodup _ (List.nodup_dedup _)
    have := filterMap_year_pairwise (R := (· ≠ ·))
      (Milex.milexPointFor worldTotals population idx b)
      (fun y p hp => Milex.milexPointFor_year worldTotals population idx b y p hp)
      (sortInt (mapKeys worldTotals)) hbase
    exact this
  · intro pop mort
    rw [U5.u5Data_eq]
    have hbase : List.Pairwise (· < ·) (U5.u5Years pop) := by
      unfold U5.u5Years
      exact sortInt_pairwise_lt _ (List.nodup_dedup _)
    refine filterMap_year_pairwise _ ?_ _ hbase
    intro y p hp
    by_cases hc : 7/10 ≤ U5.u5Coverage pop mort y ∧ 0 < U5.u5CoveredPop pop mort y
    · rw [if_pos hc] at hp
      injection hp with hp
      rw [← hp]
    · rw [if_neg hc] at hp
      exact Option.noConfusion hp

/-- Witness for C4 at the concrete homicide run evaluated above. -/
theorem claim4_witness :
    Homicide.homicideRun [(("AAA", (2000 : ℤ)), (10 : ℚ))]
      [(("AAA", 2000), 100), (("BBB", 2000), 100)] [] = .ok [Point.mk 2000 10] ∧
    List.Pairwise (fun a b : Point => a.year < b.year) [Point.mk 2000 10] :=
  ⟨Homicide.exampleRun_eval,
   claim4_published_years_strictly_ascending.1 _ _ _ _ Homicide.exampleRun_eval⟩


/-- Witness for C5 at a concrete event (2019-01-01T00:00Z for nine days):
the partition part of the conclusion, instantiated. -/
theorem claim5_witness :
    (Shutdown.NEvent.mk "IND" "India" 1546300800000 1547078400000 false).startMs <
      (Shutdown.NEvent.mk "IND" "India" 1546300800000 1547078400000 false).endMs ∧
    ((Shutdown.splitByYear
        (Shutdown.NEvent.mk "IND" "India" 1546300800000 1547078400000 false)).map
      (fun iv => iv.endMs - iv.startMs)).sum =
      (Shutdown.NEvent.mk "IND" "India" 1546300800000 1547078400000 false).endMs -
        (Shutdown.NEvent.mk "IND" "India" 1546300800000 1547078400000 false).startMs :=
  ⟨by decide,
   (claim5_splitByYear_partition
     (Shutdown.NEvent.mk "IND" "India" 1546300800000 1547078400000 false)
     (by decide)).2.2.2⟩

end GAI
